import Mathlib

/-!
Verification development for the pipedrive-qbo-sync repository.

The JavaScript sources are shallowly embedded as executable Lean
definitions: JS strings become String, null or undefined values become
Option, timestamps become Nat milliseconds, thrown exceptions become
Except values, and the Postgres users table becomes a list of rows.
Each definition carries a comment naming the source location it
translates.
-/

namespace PQSync

/-! ## JS string semantics helpers -/

/-- Truthiness of an optional JS string value: null or undefined and the
empty string are falsy, every other string is truthy. -/
def jsTruthy : Option String → Bool
  | none => false
  | some s => s != ""

/-- JS logical-or over optional strings, which keeps the left value when
it is truthy and otherwise yields the right value. -/
def jsOr (a b : Option String) : Option String :=
  if jsTruthy a then a else b

/-- ASCII lower-casing of one character, the case folding relevant to the
identifiers this code base lower-cases. -/
def lowerChar (c : Char) : Char :=
  if 65 ≤ c.toNat && c.toNat ≤ 90 then Char.ofNat (c.toNat + 32) else c

/-- Lower-casing of a whole string, modelling toLowerCase. -/
def lowerStr (s : String) : String := String.mk (s.data.map lowerChar)

/-- Contiguous-sublist test over character lists. -/
def subNeedle (needle : List Char) : List Char → Bool
  | [] => needle.isEmpty
  | c :: t => needle.isPrefixOf (c :: t) || subNeedle needle t

/-- JS String.includes: case-sensitive containment. -/
def strIncludes (s t : String) : Bool := subNeedle t.data s.data

/-- SQL ILIKE with a wildcard on both ends: case-insensitive containment. -/
def ilikeContains (hay needle : String) : Bool :=
  strIncludes (lowerStr hay) (lowerStr needle)

/-- JS String.replace with a plain-string pattern and empty replacement:
removes the first occurrence of the pattern. -/
def removeFirstOcc (pat : List Char) : List Char → List Char
  | [] => []
  | c :: t =>
    if pat.isPrefixOf (c :: t) then (c :: t).drop pat.length
    else c :: removeFirstOcc pat t

/-- The replace call written as apiDomain.replace with pattern https://
in several route handlers. -/
def stripHttps (s : String) : String :=
  String.mk (removeFirstOcc "https://".data s.data)

/-- Regex replace of a leading http or https scheme, as in the
normalizeUserId helpers. -/
def stripScheme (s : String) : String :=
  if "https://".data.isPrefixOf s.data then String.mk (s.data.drop 8)
  else if "http://".data.isPrefixOf s.data then String.mk (s.data.drop 7)
  else s

/-- Regex replace of a trailing .pipedrive.com decoration, as in the
normalizeUserId helpers. -/
def stripDecoration (s : String) : String :=
  if ".pipedrive.com".data.isSuffixOf s.data then
    String.mk (s.data.take (s.data.length - 14))
  else s

/-! ## Encryption utility, src/src/utils/encryption.js -/

/-- Configuration read by the encryption utility: the SESSION_SECRET and
ENCRYPTION_KEY environment variables. -/
structure EncConfig where
  sessionSecret : Option String
  encryptionKey : Option String
deriving DecidableEq, Repr

/-- Interface of the aes-256-gcm primitive supplied by the node crypto
library, which is external to this repository: sha256 key derivation from
the configured secret, encryption of a plaintext under a key and an iv
into ciphertext bytes plus an authentication tag, and authenticated
decryption, which can fail when the tag does not verify. -/
structure CipherCore where
  derive : String → List Nat
  encCore : List Nat → List Nat → String → List Nat × List Nat
  decCore : List Nat → List Nat → List Nat → List Nat → Option String

/-- The guarantees of an AEAD primitive that the repository relies on:
decryption under the same key and iv inverts encryption, and ciphertext
and tag consist of bytes. -/
def GoodCipher (c : CipherCore) : Prop :=
  (∀ key iv x, c.decCore key iv (c.encCore key iv x).2 (c.encCore key iv x).1 = some x) ∧
  (∀ key iv x, ∀ b ∈ (c.encCore key iv x).1, b < 256) ∧
  (∀ key iv x, ∀ b ∈ (c.encCore key iv x).2, b < 256)

/-- Translation of getEncryptionKey, encryption.js lines 7 to 21: read
SESSION_SECRET falling back to ENCRYPTION_KEY, throw when the secret is
absent or shorter than 16 characters, otherwise hash it into the key. -/
def getEncryptionKey (c : CipherCore) (cfg : EncConfig) : Except String (List Nat) :=
  match jsOr cfg.sessionSecret cfg.encryptionKey with
  | none => .error "Encryption key not configured. Please set SESSION_SECRET in secrets."
  | some s =>
    if s = "" then
      .error "Encryption key not configured. Please set SESSION_SECRET in secrets."
    else if s.length < 16 then
      .error "Encryption key too short. Please use a stronger SESSION_SECRET."
    else .ok (c.derive s)

/-- Whether the configured secret is present and long enough, so that
getEncryptionKey succeeds. -/
def goodKeyCfg (cfg : EncConfig) : Bool :=
  match jsOr cfg.sessionSecret cfg.encryptionKey with
  | none => false
  | some s => if s = "" then false else decide (16 ≤ s.length)

/-- Hexadecimal digit character of a value below 16, lowercase as the
node Buffer hex encoding emits. -/
def hexDigit (n : Nat) : Char :=
  if n < 10 then Char.ofNat (48 + n) else Char.ofNat (87 + n)

/-- Numeric value of a hexadecimal digit character, lowercase or
uppercase, as Buffer hex decoding accepts it. -/
def hexVal (c : Char) : Option Nat :=
  if 48 ≤ c.toNat && c.toNat ≤ 57 then some (c.toNat - 48)
  else if 97 ≤ c.toNat && c.toNat ≤ 102 then some (c.toNat - 87)
  else if 65 ≤ c.toNat && c.toNat ≤ 70 then some (c.toNat - 55)
  else none

/-- Buffer hex encoding: two lowercase digits per byte. -/
def hexEncode : List Nat → List Char
  | [] => []
  | b :: t => hexDigit (b / 16) :: hexDigit (b % 16) :: hexEncode t

/-- Buffer hex decoding; failure stands for the ways the try block of
decrypt can throw downstream of a malformed component. -/
def hexDecode : List Char → Option (List Nat)
  | [] => some []
  | [_] => none
  | c1 :: c2 :: t =>
    match hexVal c1, hexVal c2, hexDecode t with
    | some h, some l, some r => some ((16 * h + l) :: r)
    | _, _, _ => none

/-- JS String.split on the colon character. -/
def splitColon : List Char → List (List Char)
  | [] => [[]]
  | c :: t =>
    if c = ':' then [] :: splitColon t
    else
      match splitColon t with
      | h :: r => (c :: h) :: r
      | [] => [[c]]

/-- Translation of encrypt, encryption.js lines 23 to 36. The iv argument
stands for the crypto.randomBytes call. A falsy input is passed through
as null before the key is read; otherwise a missing or short secret makes
the call throw, and on success the envelope iv, tag and ciphertext are
hex encoded and joined with colons. -/
def encrypt (c : CipherCore) (cfg : EncConfig) (iv : List Nat) (text : Option String) :
    Except String (Option String) :=
  match text with
  | none => .ok none
  | some t =>
    if t = "" then .ok none
    else
      match getEncryptionKey c cfg with
      | .error e => .error e
      | .ok key =>
        let ect := c.encCore key iv t
        .ok (some (String.mk (hexEncode iv ++ ':' :: (hexEncode ect.2 ++ ':' :: hexEncode ect.1))))

/-- Body of the try block of decrypt once the input has split into three
segments: hex-decode iv, tag and ciphertext, read the key and run the
authenticated decryption; every throw falls back to the original
string s. -/
def decryptSegments (c : CipherCore) (cfg : EncConfig) (s : String) (p0 p1 p2 : List Char) :
    Option String :=
  match hexDecode p0 with
  | none => some s
  | some iv =>
    match hexDecode p1 with
    | none => some s
    | some tag =>
      match hexDecode p2 with
      | none => some s
      | some ct =>
        match getEncryptionKey c cfg with
        | .ok key =>
          match c.decCore key iv tag ct with
          | some plain => some plain
          | none => some s
        | .error _ => some s

/-- Translation of decrypt, encryption.js lines 38 to 63: falsy input
gives null, a value that does not split into exactly three colon
separated segments is returned unchanged, and every failure inside the
try block, including the getEncryptionKey throw and tag verification
failure, is caught and the original input returned. -/
def decrypt (c : CipherCore) (cfg : EncConfig) (encryptedData : Option String) :
    Option String :=
  match encryptedData with
  | none => none
  | some s =>
    if s = "" then none
    else
      match splitColon s.data with
      | [p0, p1, p2] => decryptSegments c cfg s p0 p1 p2
      | _ => some s

/-- The successful-decryption part of decryptSegments in isolation: none
collects every fallback branch. -/
def envelopeDecodeSegments (c : CipherCore) (cfg : EncConfig) (p0 p1 p2 : List Char) :
    Option String :=
  match hexDecode p0 with
  | none => none
  | some iv =>
    match hexDecode p1 with
    | none => none
    | some tag =>
      match hexDecode p2 with
      | none => none
      | some ct =>
        match getEncryptionKey c cfg with
        | .ok key => c.decCore key iv tag ct
        | .error _ => none

/-- The attempt of decrypt to read its argument as a well-formed envelope
and decrypt it; none collects every fallback branch. -/
def envelopeDecode (c : CipherCore) (cfg : EncConfig) (s : String) : Option String :=
  match splitColon s.data with
  | [p0, p1, p2] => envelopeDecodeSegments c cfg p0 p1 p2
  | _ => none

/-! ## Credential store, the postgres module bundled in src/config/schema.sql -/

/-- Translation of normalizeUserId, schema.sql bundle lines 131 to 137:
strip a leading protocol scheme and a trailing .pipedrive.com suffix. -/
def normalizeUserId (id : String) : String := stripDecoration (stripScheme id)

/-- One row of the users table, schema.sql lines 5 to 45. Secret columns
hold whatever the encrypt call produced, timestamp columns are Nat
milliseconds, and the table has no pipedrive_numeric_id column. -/
structure Row where
  pipedrive_user_id : String
  pipedrive_access_token : Option String := none
  pipedrive_refresh_token : Option String := none
  pipedrive_expires_at : Option Nat := none
  pipedrive_api_domain : Option String := none
  qb_access_token : Option String := none
  qb_refresh_token : Option String := none
  qb_realm_id : Option String := none
  qb_expires_at : Option Nat := none
  qb_last_refresh : Option Nat := none
  shipstation_api_key : Option String := none
  shipstation_api_secret : Option String := none
  shipstation_auto_create : Bool := false
  shipstation_connected_at : Option Nat := none
  invoice_item_field : Option String := none
  invoice_qty_field : Option String := none
  invoice_price_field : Option String := none
  setup_completed : Bool := false
  setup_completed_at : Option Nat := none
  setup_token : Option String := none
  setup_token_expires : Option Nat := none
  invoice_preferences : Option String := none
  created_at : Nat := 0
  updated_at : Nat := 0
deriving DecidableEq, Repr

/-- The data object passed to setUser. JS objects are open, so the fields
are every property setUser reads plus the extra properties callers attach
that setUser silently drops, notably pipedrive_numeric_id and
qb_expires_in, which have no users table column. -/
structure SetData where
  pipedrive_access_token : Option String := none
  access_token : Option String := none
  pipedrive_refresh_token : Option String := none
  refresh_token : Option String := none
  pipedrive_expires_at : Option Nat := none
  expires_at : Option Nat := none
  pipedrive_api_domain : Option String := none
  api_domain : Option String := none
  qb_access_token : Option String := none
  qb_refresh_token : Option String := none
  qb_realm_id : Option String := none
  qb_expires_at : Option Nat := none
  qb_expires_in : Option Nat := none
  qb_last_refresh : Option Nat := none
  shipstation_api_key : Option String := none
  shipstation_api_secret : Option String := none
  shipstation_auto_create : Option Bool := none
  shipstation_connected_at : Option Nat := none
  invoice_item_field : Option String := none
  invoice_qty_field : Option String := none
  invoice_price_field : Option String := none
  setup_completed : Option Bool := none
  setup_completed_at : Option Nat := none
  setup_token : Option String := none
  setup_token_expires : Option Nat := none
  invoice_preferences : Option String := none
  pipedrive_numeric_id : Option String := none
deriving DecidableEq, Repr

/-- Left-biased choice between optional values, the JS fallback pattern a
or b over properties whose values are never falsy when present. -/
def orOpt {α : Type} : Option α → Option α → Option α
  | some x, _ => some x
  | none, b => b

/-- The row produced by the UPDATE branch of setUser for an existing row
r: every data column is set from the supplied object, the key and
created_at columns are not in the SET list and survive, and the trigger
stamps updated_at. -/
def updatedRow (encryptF : Option String → Option String) (r : Row) (data : SetData)
    (now : Nat) : Row :=
  { pipedrive_user_id := r.pipedrive_user_id,
    pipedrive_access_token := encryptF (jsOr data.pipedrive_access_token data.access_token),
    pipedrive_refresh_token := encryptF (jsOr data.pipedrive_refresh_token data.refresh_token),
    pipedrive_expires_at := orOpt data.pipedrive_expires_at data.expires_at,
    pipedrive_api_domain := jsOr data.pipedrive_api_domain data.api_domain,
    qb_access_token := encryptF data.qb_access_token,
    qb_refresh_token := encryptF data.qb_refresh_token,
    qb_realm_id := data.qb_realm_id,
    qb_expires_at := data.qb_expires_at,
    qb_last_refresh := data.qb_last_refresh,
    shipstation_api_key := data.shipstation_api_key,
    shipstation_api_secret := data.shipstation_api_secret,
    shipstation_auto_create := data.shipstation_auto_create.getD false,
    shipstation_connected_at := data.shipstation_connected_at,
    invoice_item_field := data.invoice_item_field,
    invoice_qty_field := data.invoice_qty_field,
    invoice_price_field := data.invoice_price_field,
    setup_completed := data.setup_completed.getD false,
    setup_completed_at := data.setup_completed_at,
    setup_token := data.setup_token,
    setup_token_expires := data.setup_token_expires,
    invoice_preferences := data.invoice_preferences,
    created_at := r.created_at,
    updated_at := now }

/-- The row produced by the INSERT branch of setUser: the normalized key
plus every data column, with created_at and updated_at defaulted to the
insertion time. -/
def insertedRow (encryptF : Option String → Option String) (userId : String) (data : SetData)
    (now : Nat) : Row :=
  { pipedrive_user_id := normalizeUserId userId,
    pipedrive_access_token := encryptF (jsOr data.pipedrive_access_token data.access_token),
    pipedrive_refresh_token := encryptF (jsOr data.pipedrive_refresh_token data.refresh_token),
    pipedrive_expires_at := orOpt data.pipedrive_expires_at data.expires_at,
    pipedrive_api_domain := jsOr data.pipedrive_api_domain data.api_domain,
    qb_access_token := encryptF data.qb_access_token,
    qb_refresh_token := encryptF data.qb_refresh_token,
    qb_realm_id := data.qb_realm_id,
    qb_expires_at := data.qb_expires_at,
    qb_last_refresh := data.qb_last_refresh,
    shipstation_api_key := data.shipstation_api_key,
    shipstation_api_secret := data.shipstation_api_secret,
    shipstation_auto_create := data.shipstation_auto_create.getD false,
    shipstation_connected_at := data.shipstation_connected_at,
    invoice_item_field := data.invoice_item_field,
    invoice_qty_field := data.invoice_qty_field,
    invoice_price_field := data.invoice_price_field,
    setup_completed := data.setup_completed.getD false,
    setup_completed_at := data.setup_completed_at,
    setup_token := data.setup_token,
    setup_token_expires := data.setup_token_expires,
    invoice_preferences := data.invoice_preferences,
    created_at := now,
    updated_at := now }

/-- Translation of setUser, schema.sql bundle lines 168 to 282, together
with the updated_at trigger of schema.sql lines 89 to 108. The encryptF
parameter stands for the encrypt call. When a row with the normalized key
exists, every data column of that row is overwritten from the supplied
object, an absent property becoming NULL, and the update trigger stamps
updated_at; otherwise a new row is inserted with created_at and
updated_at both stamped. -/
def setUser (encryptF : Option String → Option String) (db : List Row) (userId : String)
    (data : SetData) (now : Nat) : List Row :=
  let normalized := normalizeUserId userId
  if db.any fun r => r.pipedrive_user_id == normalized then
    db.map fun r =>
      if r.pipedrive_user_id == normalized then updatedRow encryptF r data now else r
  else
    db ++ [insertedRow encryptF userId data now]

/-- Insertion-ordered deduplication, modelling the spread of a JS Set. -/
def dedupKeep : List String → List String
  | [] => []
  | x :: t => x :: (dedupKeep t).filter fun y => y != x

/-- The deduplicated identifier variants getUser tries, schema.sql bundle
line 141: raw input, normalized input, normalized input with the suffix
appended, with falsy entries dropped. -/
def possibleIds (userId : String) : List String :=
  dedupKeep (([userId, normalizeUserId userId,
    normalizeUserId userId ++ ".pipedrive.com"]).filter fun s => s != "")

/-- First present value in a list of lookups, modelling a sequence of
queries where the first one that returns rows wins. -/
def firstSome {α : Type} : List (Option α) → Option α
  | [] => none
  | some x :: _ => some x
  | none :: t => firstSome t

/-- Translation of getUser, schema.sql bundle lines 139 to 166: first an
exact pipedrive_user_id match for each identifier variant, then an
unconditional fallback scan that matches a row whose pipedrive_api_domain
contains the variant or the normalized input case-insensitively. -/
def getUserRow (db : List Row) (userId : String) : Option Row :=
  let normalized := normalizeUserId userId
  let ids := possibleIds userId
  match firstSome (ids.map fun tryId => db.find? fun r => r.pipedrive_user_id == tryId) with
  | some r => some r
  | none =>
    firstSome (ids.map fun tryId =>
      db.find? fun r =>
        match r.pipedrive_api_domain with
        | some d => ilikeContains d tryId || ilikeContains d normalized
        | none => false)

/-- The object getUser hands back, built by rowToUserData, schema.sql
bundle lines 300 to 335: alias fields are duplicated, token fields are
decrypted, and neither pipedrive_user_id, pipedrive_numeric_id nor
created_at is included, so those read as undefined downstream. -/
structure UserData where
  pipedrive_access_token : Option String := none
  access_token : Option String := none
  pipedrive_refresh_token : Option String := none
  refresh_token : Option String := none
  pipedrive_expires_at : Option Nat := none
  expires_at : Option Nat := none
  pipedrive_api_domain : Option String := none
  api_domain : Option String := none
  qb_access_token : Option String := none
  qb_refresh_token : Option String := none
  qb_realm_id : Option String := none
  qb_expires_at : Option Nat := none
  qb_expires_in : Option Nat := none
  qb_last_refresh : Option Nat := none
  shipstation_api_key : Option String := none
  shipstation_api_secret : Option String := none
  shipstation_auto_create : Bool := false
  shipstation_connected_at : Option Nat := none
  invoice_item_field : Option String := none
  invoice_qty_field : Option String := none
  invoice_price_field : Option String := none
  setup_completed : Bool := false
  setup_completed_at : Option Nat := none
  setup_token : Option String := none
  setup_token_expires : Option Nat := none
  invoice_preferences : Option String := none
  pipedrive_numeric_id : Option String := none
  pipedrive_user_id : Option String := none
  created_at : Option Nat := none
deriving DecidableEq, Repr

/-- Translation of rowToUserData, with decryptF standing for decrypt. -/
def rowToUserData (decryptF : Option String → Option String) (r : Row) : UserData :=
  let pat := decryptF r.pipedrive_access_token
  let prt := decryptF r.pipedrive_refresh_token
  let qat := decryptF r.qb_access_token
  let qrt := decryptF r.qb_refresh_token
  { pipedrive_access_token := pat, access_token := pat,
    pipedrive_refresh_token := prt, refresh_token := prt,
    pipedrive_expires_at := r.pipedrive_expires_at, expires_at := r.pipedrive_expires_at,
    pipedrive_api_domain := r.pipedrive_api_domain, api_domain := r.pipedrive_api_domain,
    qb_access_token := qat, qb_refresh_token := qrt,
    qb_realm_id := r.qb_realm_id, qb_expires_at := r.qb_expires_at,
    qb_expires_in := none,
    qb_last_refresh := r.qb_last_refresh,
    shipstation_api_key := r.shipstation_api_key,
    shipstation_api_secret := r.shipstation_api_secret,
    shipstation_auto_create := r.shipstation_auto_create,
    shipstation_connected_at := r.shipstation_connected_at,
    invoice_item_field := r.invoice_item_field,
    invoice_qty_field := r.invoice_qty_field,
    invoice_price_field := r.invoice_price_field,
    setup_completed := r.setup_completed,
    setup_completed_at := r.setup_completed_at,
    setup_token := r.setup_token,
    setup_token_expires := r.setup_token_expires,
    invoice_preferences := r.invoice_preferences,
    pipedrive_numeric_id := none,
    pipedrive_user_id := none,
    created_at := none }

/-- getUser as seen by callers: the matched row passed through
rowToUserData. -/
def getUser (decryptF : Option String → Option String) (db : List Row) (userId : String) :
    Option UserData :=
  (getUserRow db userId).map (rowToUserData decryptF)

/-- Translation of listUsers, schema.sql bundle lines 290 to 298, without
a filter argument: every stored pipedrive_user_id. -/
def listUsers (db : List Row) : List String := db.map fun r => r.pipedrive_user_id

/-! ## GET /api/user-status identifier resolution, src/src/routes/index.js -/

/-- The candidate identifier list of GET /api/user-status, routes
index.js lines 1672 to 1683: companyDomain first, then the raw input and
its normalized, suffixed and protocol-qualified variants, deduplicated
with falsy entries dropped. -/
def userStatusIds (pipedriveUserId : String) (companyDomain : Option String) : List String :=
  let normalizedInput := normalizeUserId pipedriveUserId
  dedupKeep ((companyDomain.toList ++
    [pipedriveUserId, normalizedInput, normalizedInput ++ ".pipedrive.com",
     "https://" ++ normalizedInput ++ ".pipedrive.com",
     "https://" ++ pipedriveUserId]).filter fun s => s != "")

/-- First phase of /api/user-status, routes index.js lines 1686 to 1702:
try each variant in turn, remembering the last variant that returned
data and stopping early at one that already has QuickBooks tokens. -/
def userStatusPhase1 (decryptF : Option String → Option String) (db : List Row) :
    List String → Option (String × UserData) → Option (String × UserData)
  | [], acc => acc
  | tryId :: rest, acc =>
    match getUser decryptF db tryId with
    | some u =>
      if jsTruthy u.qb_access_token && jsTruthy u.qb_realm_id then some (tryId, u)
      else userStatusPhase1 decryptF db rest (some (tryId, u))
    | none => userStatusPhase1 decryptF db rest acc

/-- The isMatch predicate of the /api/user-status fallback scan, routes
index.js lines 1715 to 1734. -/
def userStatusIsMatch (pipedriveUserId : String) (companyDomain numericUserId : Option String)
    (key : String) (u : UserData) : Bool :=
  let normalizedInput := normalizeUserId pipedriveUserId
  let normalizedKey := normalizeUserId key
  (normalizedKey == normalizedInput) ||
  (key == pipedriveUserId) ||
  (match u.api_domain with
   | some d => strIncludes d normalizedInput
   | none => false) ||
  (strIncludes normalizedInput normalizedKey) ||
  (strIncludes normalizedKey normalizedInput) ||
  (match numericUserId with
   | some nid => if nid != "" then u.pipedrive_numeric_id == some nid else false
   | none => false) ||
  (if jsTruthy u.pipedrive_numeric_id then
    u.pipedrive_numeric_id == some pipedriveUserId ||
      u.pipedrive_numeric_id == some normalizedInput
   else false) ||
  (match companyDomain with
   | some cd =>
     if cd != "" then
       normalizedKey == cd || key == cd ||
         (match u.pipedrive_user_id with
          | some pu => pu == cd
          | none => false)
     else false
   | none => false)

/-- Fallback scan of /api/user-status, routes index.js lines 1704 to
1744: walk every stored key, keep the first user that has QuickBooks
tokens and satisfies isMatch. -/
def userStatusScan (decryptF : Option String → Option String) (db : List Row)
    (pipedriveUserId : String) (companyDomain numericUserId : Option String) :
    List String → Option (String × UserData)
  | [] => none
  | key :: rest =>
    match getUser decryptF db key with
    | some u =>
      if jsTruthy u.qb_access_token && jsTruthy u.qb_realm_id &&
          userStatusIsMatch pipedriveUserId companyDomain numericUserId key u then
        some (key, u)
      else userStatusScan decryptF db pipedriveUserId companyDomain numericUserId rest
    | none => userStatusScan decryptF db pipedriveUserId companyDomain numericUserId rest

/-- Resolution performed by GET /api/user-status, routes index.js lines
1641 to 1756, for requests whose userId parameter is present: the variant
phase, then, when the chosen user lacks both QuickBooks fields, the full
scan, falling back to the phase-one result when the scan finds nothing. -/
def userStatusResolve (decryptF : Option String → Option String) (db : List Row)
    (pipedriveUserId : String) (companyDomain numericUserId : Option String) :
    Option (String × UserData) :=
  let phase1 := userStatusPhase1 decryptF db (userStatusIds pipedriveUserId companyDomain) none
  let needScan :=
    match phase1 with
    | none => true
    | some (_, u) => !(jsTruthy u.qb_access_token) && !(jsTruthy u.qb_realm_id)
  if needScan then
    match userStatusScan decryptF db pipedriveUserId companyDomain numericUserId (listUsers db) with
    | some ku => some ku
    | none => phase1
  else phase1

/-! ## Token refresh engine and API call wrapper, src/src/routes/index.js
and src/unnamed/part_000 -/

/-- Translation of tokenNeedsRefresh, routes index.js lines 258 to 282:
without an expiry timestamp refresh exactly when a refresh token exists,
otherwise refresh when the expiry falls within ten minutes of now.
Times are Nat milliseconds. -/
def tokenNeedsRefresh (u : UserData) (now : Nat) : Bool :=
  match u.qb_expires_at with
  | none => jsTruthy u.qb_refresh_token
  | some e => decide (e < now + 600000)

/-- The token fields the provider returns from a refresh exchange. -/
structure NewTokens where
  access_token : String
  refresh_token : String
  expires_in : Nat
deriving DecidableEq, Repr

/-- Provider-side failure of a refresh call: the stringified error the
catch block inspects and the message property rethrown to callers. -/
structure ProviderError where
  stringified : String
  message : String
deriving DecidableEq, Repr

/-- Errors qbAuth refreshToken can throw: the custom
REFRESH_TOKEN_EXPIRED error with its fixed message, or the original
provider error rethrown. -/
inductive RefreshError
  | refreshTokenExpired (msg : String)
  | other (e : ProviderError)
deriving DecidableEq, Repr

/-- Revocation signature test of qbAuth refreshToken, part_000 lines 92
to 93: the lower-cased stringified error mentions invalid_grant, expired
or revoked. -/
def revocationSignature (s : String) : Bool :=
  strIncludes (lowerStr s) "invalid_grant" || strIncludes (lowerStr s) "expired" ||
    strIncludes (lowerStr s) "revoked"

/-- Message of the custom REFRESH_TOKEN_EXPIRED error, part_000 line 94. -/
def qbReauthMsg : String :=
  "QuickBooks refresh token has expired or been revoked. Please reconnect to QuickBooks."

/-- Translation of qbAuth refreshToken, src/unnamed/part_000 lines 51 to
101. The providerResult argument stands for the oauthClient refresh call
made with the submitted refresh token. -/
def qbRefreshToken (providerResult : Except ProviderError NewTokens) :
    Except RefreshError NewTokens :=
  match providerResult with
  | .ok t => .ok t
  | .error e =>
    if revocationSignature e.stringified then .error (.refreshTokenExpired qbReauthMsg)
    else .error (.other e)

/-- The message property of a refresh error as seen by callers. -/
def refreshErrMessage : RefreshError → String
  | .refreshTokenExpired m => m
  | .other e => e.message

/-- Reconnect message thrown by refreshAndSaveToken, routes index.js
line 334. -/
def qbInvalidMsg : String :=
  "QuickBooks refresh token is invalid or expired. Please reconnect to QuickBooks."

/-- Signature test of refreshAndSaveToken, routes index.js line 333,
applied to the lower-cased error message. -/
def invalidMsgSignature (s : String) : Bool :=
  strIncludes (lowerStr s) "invalid" || strIncludes (lowerStr s) "expired" ||
    strIncludes (lowerStr s) "revoked"

/-- Outcome of refreshAndSaveToken: null return for a missing refresh
token, the updated userData on success, or a thrown error message. -/
inductive RefreshOutcome
  | skipped
  | refreshed (u : UserData)
  | failed (msg : String)
deriving DecidableEq, Repr

/-- View of a userData object through the properties setUser reads. -/
def toSetData (u : UserData) : SetData :=
  { pipedrive_access_token := u.pipedrive_access_token,
    access_token := u.access_token,
    pipedrive_refresh_token := u.pipedrive_refresh_token,
    refresh_token := u.refresh_token,
    pipedrive_expires_at := u.pipedrive_expires_at,
    expires_at := u.expires_at,
    pipedrive_api_domain := u.pipedrive_api_domain,
    api_domain := u.api_domain,
    qb_access_token := u.qb_access_token,
    qb_refresh_token := u.qb_refresh_token,
    qb_realm_id := u.qb_realm_id,
    qb_expires_at := u.qb_expires_at,
    qb_expires_in := u.qb_expires_in,
    qb_last_refresh := u.qb_last_refresh,
    shipstation_api_key := u.shipstation_api_key,
    shipstation_api_secret := u.shipstation_api_secret,
    shipstation_auto_create := some u.shipstation_auto_create,
    shipstation_connected_at := u.shipstation_connected_at,
    invoice_item_field := u.invoice_item_field,
    invoice_qty_field := u.invoice_qty_field,
    invoice_price_field := u.invoice_price_field,
    setup_completed := some u.setup_completed,
    setup_completed_at := u.setup_completed_at,
    setup_token := u.setup_token,
    setup_token_expires := u.setup_token_expires,
    invoice_preferences := u.invoice_preferences,
    pipedrive_numeric_id := u.pipedrive_numeric_id }

/-- The userData object refreshAndSaveToken builds after a successful
refresh, routes index.js lines 307 to 314: the spread of the old object
with the whole new token pair, the recomputed expiry and the refresh
stamp. -/
def refreshedUserData (userData : UserData) (nt : NewTokens) (now : Nat) : UserData :=
  { userData with
    qb_access_token := some nt.access_token,
    qb_refresh_token := some nt.refresh_token,
    qb_expires_in := some nt.expires_in,
    qb_expires_at := some (now + nt.expires_in * 1000),
    qb_last_refresh := some now }

/-- Translation of refreshAndSaveToken, routes index.js lines 286 to
339: return null without touching anything when no refresh token exists;
on success persist the full rotated pair through one setUser write and
return the updated userData; on failure write nothing and rethrow,
collapsing invalid, expired or revoked sounding messages into the
reconnect message. -/
def refreshAndSaveToken (encryptF : Option String → Option String) (db : List Row)
    (userId : String) (userData : UserData)
    (providerResult : Except ProviderError NewTokens) (now : Nat) :
    RefreshOutcome × List Row :=
  if !(jsTruthy userData.qb_refresh_token) then (.skipped, db)
  else
    match qbRefreshToken providerResult with
    | .ok nt =>
      let updated := refreshedUserData userData nt now
      (.refreshed updated, setUser encryptF db userId (toSetData updated) now)
    | .error e =>
      if invalidMsgSignature (refreshErrMessage e) then (.failed qbInvalidMsg, db)
      else (.failed (refreshErrMessage e), db)

/-- Result of one apiCallFunction invocation: a resolved value or a
thrown error carrying an HTTP status and a message. -/
inductive ApiResult (α : Type)
  | ok (v : α)
  | err (status : Nat) (message : String)
deriving DecidableEq, Repr

/-- Errors makeQBApiCall can throw: the wrapped authentication failures
thrown as new Error with a message, or the rethrown non-401 api error. -/
inductive QBCallError
  | hardAuth (msg : String)
  | api (status : Nat) (message : String)
deriving DecidableEq, Repr

/-- Counters of external activity during one makeQBApiCall run. -/
structure CallTrace where
  refreshCalls : Nat
  apiCalls : Nat
deriving DecidableEq, Repr

/-- JS string fallback a or b for the message defaulting at routes
index.js line 431. -/
def jsOrString (a b : String) : String := if a = "" then b else a

/-- Default message of the reactive-refresh catch, routes index.js
line 431. -/
def qbGenericAuthMsg : String := "QuickBooks authentication failed. Please reconnect."

/-- Message thrown when a 401 cannot be recovered for lack of a refresh
token, routes index.js line 421. -/
def qbSessionExpiredMsg : String := "QuickBooks session expired. Please reconnect to QuickBooks."

/-- The proactive-refresh preamble of makeQBApiCall, routes index.js
lines 371 to 386: when the token needs a refresh, attempt it, adopting
the refreshed userData on success, continuing with the existing one when
it was skipped, and swallowing failures; the Nat counts the provider
refresh exchanges consumed. -/
def proactivePhase (encryptF : Option String → Option String) (db : List Row)
    (userId : String) (userData : UserData)
    (provider : Nat → Except ProviderError NewTokens) (now : Nat) :
    UserData × List Row × Nat :=
  if tokenNeedsRefresh userData now then
    match refreshAndSaveToken encryptF db userId userData (provider 0) now with
    | (.refreshed u, db1) => (u, db1, 1)
    | (.skipped, db1) => (userData, db1, 0)
    | (.failed _, db1) => (userData, db1, 1)
  else (userData, db, 0)

/-- The 401 handler of makeQBApiCall, routes index.js lines 412 to 433:
one reactive refresh, then one retry of the original call; a missing
refresh token, a refresh failure or a failing retry are all rethrown as
hard errors, with no further refresh or retry. -/
def reactive401 {α : Type} (encryptF : Option String → Option String) (db1 : List Row)
    (userId : String) (cur : UserData)
    (provider : Nat → Except ProviderError NewTokens) (rc : Nat)
    (apiCall : Nat → UserData → ApiResult α) (now : Nat) :
    Except QBCallError α × List Row × CallTrace :=
  match refreshAndSaveToken encryptF db1 userId cur (provider rc) now with
  | (.skipped, db2) => (.error (.hardAuth qbSessionExpiredMsg), db2, ⟨rc, 1⟩)
  | (.refreshed u, db2) =>
    match apiCall 1 u with
    | .ok v => (.ok v, db2, ⟨rc + 1, 2⟩)
    | .err _ m2 => (.error (.hardAuth (jsOrString m2 qbGenericAuthMsg)), db2, ⟨rc + 1, 2⟩)
  | (.failed m, db2) =>
    (.error (.hardAuth (jsOrString m qbGenericAuthMsg)), db2, ⟨rc + 1, 1⟩)

/-- Translation of makeQBApiCall, routes index.js lines 341 to 438. The
apiCall argument stands for apiCallFunction, indexed by how many times it
has been invoked; provider is indexed likewise over refresh calls.
Control flow of the source: the proactive preamble, one api call, and on
a 401 the reactive refresh-and-retry-once handler; non-401 errors are
rethrown. The trace counts provider refresh exchanges and api call
invocations. -/
def makeQBApiCall {α : Type} (encryptF : Option String → Option String) (db : List Row)
    (userId : String) (userData : UserData)
    (provider : Nat → Except ProviderError NewTokens)
    (apiCall : Nat → UserData → ApiResult α) (now : Nat) :
    Except QBCallError α × List Row × CallTrace :=
  let pp := proactivePhase encryptF db userId userData provider now
  match apiCall 0 pp.1 with
  | .ok v => (.ok v, pp.2.1, ⟨pp.2.2, 1⟩)
  | .err status msg =>
    if status == 401 then reactive401 encryptF pp.2.1 userId pp.1 provider pp.2.2 apiCall now
    else (.error (.api status msg), pp.2.1, ⟨pp.2.2, 1⟩)

/-! ## POST /api/attach-contact fallback lookup and tenant-safe merge,
src/src/routes/index.js lines 2428 to 2535 -/

/-- One element of the usersWithPipedriveTokens list, routes index.js
lines 2476 to 2482. -/
structure PdEntry where
  key : String
  data : UserData
  createdAt : Nat
  hasQBTokens : Bool
  apiDomain : Option String
deriving DecidableEq, Repr

/-- Accumulated state of the attach-contact scan loop: the first
QuickBooks-token holder per normalized api_domain, the collected
Pipedrive-token holders, and the loop-breaking direct hit. -/
structure AttachScan where
  qbByDomain : List (String × String × UserData)
  pdUsers : List PdEntry
  directHit : Option (String × UserData)
deriving DecidableEq, Repr

/-- Lookup in the qbTokensByDomain object. -/
def lookupDomain (l : List (String × String × UserData)) (d : String) :
    Option (String × UserData) :=
  match l.find? fun e => e.1 == d with
  | some e => some e.2
  | none => none

/-- The qbTokensByDomain bookkeeping of one scan iteration, routes
index.js lines 2453 to 2459: a user with QuickBooks tokens, a realm and
a truthy api_domain is recorded under its normalized domain, first entry
per domain winning. -/
def qbTrack (acc : AttachScan) (key : String) (u : UserData) : AttachScan :=
  if jsTruthy u.qb_access_token && jsTruthy u.qb_realm_id && jsTruthy u.api_domain then
    match u.api_domain with
    | some d =>
      if (lookupDomain acc.qbByDomain (stripHttps d)).isSome then acc
      else { acc with qbByDomain := acc.qbByDomain ++ [(stripHttps d, key, u)] }
    | none => acc
  else acc

/-- The relatedness test of the scan, routes index.js lines 2462 to
2468: normalized key equality or substring containment either way
between the provided id and the user's domain. -/
def attachRelated (providedUserId key : String) (u : UserData) : Bool :=
  (stripHttps key == stripHttps providedUserId) ||
  (match u.api_domain with
   | some d => strIncludes d (stripHttps providedUserId)
   | none => false) ||
  (strIncludes (stripHttps providedUserId)
    (match u.api_domain with
     | some d => jsOrString (stripHttps d) "NOMATCH"
     | none => "NOMATCH"))

/-- The apiDomain field computation for a collected entry, routes
index.js line 2481: the normalized domain, or null when the domain is
absent or normalizes to the empty string. -/
def normDomainOpt : Option String → Option String
  | some d => if stripHttps d = "" then none else some (stripHttps d)
  | none => none

/-- The element pushed onto usersWithPipedriveTokens, routes index.js
lines 2476 to 2482. -/
def pdEntryOf (key : String) (u : UserData) : PdEntry :=
  { key := key, data := u, createdAt := u.created_at.getD 0,
    hasQBTokens := jsTruthy u.qb_access_token && jsTruthy u.qb_realm_id,
    apiDomain := normDomainOpt u.api_domain }

/-- Translation of the attach-contact scan loop, routes index.js lines
2450 to 2484: every iteration first records the user in qbTokensByDomain;
then, for users with Pipedrive tokens, either breaks at one related to
the provided id or collects it with its freshness data. -/
def attachScan (decryptF : Option String → Option String) (db : List Row)
    (providedUserId : String) : List String → AttachScan → AttachScan
  | [], acc => acc
  | key :: rest, acc =>
    match getUser decryptF db key with
    | none => attachScan decryptF db providedUserId rest acc
    | some u =>
      let acc1 := qbTrack acc key u
      if jsTruthy u.access_token then
        if attachRelated providedUserId key u then { acc1 with directHit := some (key, u) }
        else
          attachScan decryptF db providedUserId rest
            { acc1 with pdUsers := acc1.pdUsers ++ [pdEntryOf key u] }
      else attachScan decryptF db providedUserId rest acc1

/-- Stable maximal element by creation date: the head after the
descending stable sort at routes index.js line 2489. -/
def pickFreshest : List PdEntry → Option PdEntry
  | [] => none
  | e :: t =>
    match pickFreshest t with
    | none => some e
    | some m => if m.createdAt > e.createdAt then some m else some e

/-- Result of the attach-contact lookup: the user finally chosen, the
resulting store, and, when QuickBooks credentials were copied from a
stored record into another, the target data, source key and source data
at merge time. -/
structure AttachResult where
  chosen : Option (String × UserData)
  db : List Row
  merged : Option (UserData × String × UserData)
deriving DecidableEq, Repr

/-- The realm-consistency gate and merge write, routes index.js lines
2501 to 2525: merge the source user's QuickBooks fields into the target
when the target has no realm yet or both realms agree, persisting
through setUser under the target's key. -/
def attachMergeGate (encryptF : Option String → Option String) (db : List Row) (now : Nat)
    (freshest : PdEntry) (srcKey : String) (srcData : UserData) : AttachResult :=
  if !(jsTruthy freshest.data.qb_realm_id) ||
      (freshest.data.qb_realm_id == srcData.qb_realm_id) then
    let mergedData := { freshest.data with
      qb_access_token := srcData.qb_access_token,
      qb_refresh_token := srcData.qb_refresh_token,
      qb_realm_id := srcData.qb_realm_id }
    ⟨some (freshest.key, mergedData),
      setUser encryptF db freshest.key (toSetData mergedData) now,
      some (freshest.data, srcKey, srcData)⟩
  else ⟨some (freshest.key, freshest.data), db, none⟩

/-- The same-tenant source lookup, routes index.js lines 2497 to 2525:
only when the freshest user lacks QuickBooks tokens and has a domain is
qbTokensByDomain consulted, under that very domain. -/
def attachSource (encryptF : Option String → Option String) (db : List Row) (now : Nat)
    (scan : AttachScan) (freshest : PdEntry) : AttachResult :=
  if !freshest.hasQBTokens then
    match freshest.apiDomain with
    | some fd =>
      match lookupDomain scan.qbByDomain fd with
      | some (srcKey, srcData) => attachMergeGate encryptF db now freshest srcKey srcData
      | none => ⟨some (freshest.key, freshest.data), db, none⟩
    | none => ⟨some (freshest.key, freshest.data), db, none⟩
  else ⟨some (freshest.key, freshest.data), db, none⟩

/-- Translation of the freshest-user selection and tenant-safe merge,
routes index.js lines 2486 to 2526: take the freshest collected user and
run the same-tenant merge logic on it. -/
def attachFreshestStep (encryptF : Option String → Option String) (db : List Row)
    (now : Nat) (scan : AttachScan) : AttachResult :=
  match pickFreshest scan.pdUsers with
  | none => ⟨none, db, none⟩
  | some freshest => attachSource encryptF db now scan freshest

/-- The direct lookup attempt at the provided id, routes index.js lines
2432 to 2436. -/
def attachInitial (decryptF : Option String → Option String) (db : List Row)
    (providedUserId : String) : Option (String × UserData) :=
  match getUser decryptF db providedUserId with
  | some u => if jsTruthy u.access_token then some (providedUserId, u) else none
  | none => none

/-- Translation of the user lookup of POST /api/attach-contact, routes
index.js lines 2428 to 2535: the provided id first, then the scan with
its direct-hit break, then the freshest-user fallback with the
tenant-safe merge. -/
def attachContactLookup (decryptF encryptF : Option String → Option String) (db : List Row)
    (providedUserId : String) (now : Nat) : AttachResult :=
  match attachInitial decryptF db providedUserId with
  | some ku => ⟨some ku, db, none⟩
  | none =>
    let scan := attachScan decryptF db providedUserId (listUsers db) ⟨[], [], none⟩
    match scan.directHit with
    | some ku => ⟨some ku, db, none⟩
    | none => attachFreshestStep encryptF db now scan

/-- Invariant of the qbTokensByDomain object: every entry is keyed by
the normalized domain of the user stored in it. -/
def QbInv (l : List (String × String × UserData)) : Prop :=
  ∀ e ∈ l, ∃ d, e.2.2.api_domain = some d ∧ stripHttps d = e.1

/-- Invariant of the collected Pipedrive users: the apiDomain field of
an entry is the normalized domain of its userData. -/
def PdInv (l : List PdEntry) : Prop :=
  ∀ en ∈ l, ∀ fd, en.apiDomain = some fd →
    ∃ d, en.data.api_domain = some d ∧ stripHttps d = fd

/-! ## Interleaving model of two concurrent refreshAndSaveToken runs -/

/-- Provider-side state for single-use refresh token semantics: the
refresh token currently accepted and how many refresh exchanges the
provider has served. -/
structure ProviderState where
  validRefreshToken : String
  calls : Nat
deriving DecidableEq, Repr

/-- One refresh exchange at the provider: a submission of the current
token rotates it and returns a fresh pair, any other submission is
answered with an invalid_grant error body; either way one refresh call
is served. -/
def providerExchange (p : ProviderState) (submitted : String) :
    Except ProviderError NewTokens × ProviderState :=
  if submitted == p.validRefreshToken then
    let fresh := p.validRefreshToken ++ "+"
    (.ok ⟨"at-" ++ fresh, fresh, 3600⟩, ⟨fresh, p.calls + 1⟩)
  else
    (.error ⟨"error invalid_grant", "invalid_grant"⟩, ⟨p.validRefreshToken, p.calls + 1⟩)

/-- Decidable equality for Except values, needed to evaluate concrete
runs of the interleaving model. -/
instance {ε α : Type} [DecidableEq ε] [DecidableEq α] : DecidableEq (Except ε α) := fun x y =>
  match x, y with
  | .ok a, .ok b =>
    decidable_of_iff (a = b) ⟨fun h => by rw [h], fun h => by injection h⟩
  | .error a, .error b =>
    decidable_of_iff (a = b) ⟨fun h => by rw [h], fun h => by injection h⟩
  | .ok _, .error _ => .isFalse fun h => by injection h
  | .error _, .ok _ => .isFalse fun h => by injection h

/-- Progress of one caller through refreshAndSaveToken, split at its two
awaits: about to call the provider with the refresh token it read, about
to persist and classify the provider result, or finished. -/
inductive CallerPhase
  | ready (token : String)
  | gotResult (r : Except ProviderError NewTokens)
  | done (r : RefreshOutcome)
deriving DecidableEq, Repr

/-- Joint state of the provider, the store and two concurrent callers
that both entered refreshAndSaveToken with the same loaded userData. -/
structure ConcState where
  provider : ProviderState
  db : List Row
  a : CallerPhase
  b : CallerPhase
deriving DecidableEq, Repr

/-- One action of a caller inside refreshAndSaveToken: perform its
provider exchange, or finish the function on the result it got, reusing
the sequential translation for the post-exchange part. -/
def callerStep (encryptF : Option String → Option String) (userId : String)
    (userData : UserData) (now : Nat) (p : ProviderState) (db : List Row) :
    CallerPhase → CallerPhase × ProviderState × List Row
  | .ready t =>
    match providerExchange p t with
    | (r, p1) => (.gotResult r, p1, db)
  | .gotResult r =>
    match refreshAndSaveToken encryptF db userId userData r now with
    | (out, db1) => (.done out, p, db1)
  | .done r => (.done r, p, db)

/-- Run the chosen caller for one step. -/
def concStep (encryptF : Option String → Option String) (userId : String)
    (userData : UserData) (now : Nat) (s : ConcState) (who : Bool) : ConcState :=
  if who then
    match callerStep encryptF userId userData now s.provider s.db s.b with
    | (b1, p1, db1) => { s with b := b1, provider := p1, db := db1 }
  else
    match callerStep encryptF userId userData now s.provider s.db s.a with
    | (a1, p1, db1) => { s with a := a1, provider := p1, db := db1 }

/-- Run a whole schedule of interleaved steps. -/
def concRun (encryptF : Option String → Option String) (userId : String)
    (userData : UserData) (now : Nat) : ConcState → List Bool → ConcState
  | s, [] => s
  | s, w :: rest => concRun encryptF userId userData now (concStep encryptF userId userData now s w) rest

/-! ## Concrete fixtures used by witnesses and counterexamples -/

/-- Identity stand-in for the encrypt and decrypt calls over plaintext
fixture values: decrypt returns non-envelope strings unchanged, and the
stored form of a secret is only ever compared with itself here. -/
def idF : Option String → Option String := fun x => x

/-- Store holding one record for tenant acme, created by a Pipedrive
authorization followed by the QuickBooks callback write that attempted to
save the alternate numeric id 5521 alongside the tokens. -/
def c6db : List Row :=
  setUser idF
    (setUser idF [] "acme"
      { access_token := some "pd-at", refresh_token := some "pd-rt",
        api_domain := some "acme", expires_at := some 1000 } 5)
    "acme"
    { pipedrive_access_token := some "pd-at", access_token := some "pd-at",
      pipedrive_refresh_token := some "pd-rt", refresh_token := some "pd-rt",
      pipedrive_expires_at := some 1000, expires_at := some 1000,
      pipedrive_api_domain := some "acme", api_domain := some "acme",
      qb_access_token := some "qb-at", qb_refresh_token := some "qb-rt",
      qb_realm_id := some "9341453907", qb_expires_at := some 7000,
      pipedrive_numeric_id := some "5521" } 6

/-- Single record whose canonical key and domain are acmecorp. -/
def c7row : Row :=
  { pipedrive_user_id := "acmecorp", pipedrive_access_token := some "pd-at",
    pipedrive_api_domain := some "acmecorp", created_at := 3, updated_at := 3 }

/-- Store for the exact-versus-fuzzy lookup claim. -/
def c7db : List Row := [c7row]

/-- Existing record with QuickBooks fields populated, for the upsert
merge claim. -/
def c8row : Row :=
  { pipedrive_user_id := "acme", pipedrive_access_token := some "old-at",
    pipedrive_api_domain := some "acme", qb_access_token := some "qb-at",
    qb_refresh_token := some "qb-rt", qb_realm_id := some "9341453907",
    created_at := 5, updated_at := 5 }

/-- Store for the upsert merge claim. -/
def c8db : List Row := [c8row]

/-- Pipedrive-only record of the tenant with domain acme.pipedrive.com. -/
def c1PdRow : Row :=
  { pipedrive_user_id := "u1", pipedrive_access_token := some "pd-at",
    pipedrive_api_domain := some "acme.pipedrive.com", created_at := 10, updated_at := 10 }

/-- QuickBooks-only record of the same tenant domain. -/
def c1QbRow : Row :=
  { pipedrive_user_id := "u2", pipedrive_api_domain := some "acme.pipedrive.com",
    qb_access_token := some "qb-at", qb_refresh_token := some "qb-rt",
    qb_realm_id := some "93414", created_at := 4, updated_at := 4 }

/-- Store where the attach-contact fallback merge fires. -/
def c1db : List Row := [c1PdRow, c1QbRow]

/-- The stale userData both concurrent refresh callers loaded. -/
def c2user : UserData :=
  { pipedrive_api_domain := some "acme", api_domain := some "acme",
    qb_access_token := some "at-0", qb_refresh_token := some "rt0",
    qb_realm_id := some "93414", qb_expires_at := some 100 }

/-- Stored row matching that userData. -/
def c2row : Row :=
  { pipedrive_user_id := "acme", pipedrive_api_domain := some "acme",
    qb_access_token := some "at-0", qb_refresh_token := some "rt0",
    qb_realm_id := some "93414", qb_expires_at := some 100, created_at := 1, updated_at := 1 }

/-- Initial joint state: the provider accepts rt0 and both callers have
read rt0 out of the same stored record. -/
def c2start : ConcState := ⟨⟨"rt0", 0⟩, [c2row], .ready "rt0", .ready "rt0"⟩

/-- The double-submission schedule: both callers perform their provider
exchange before either writes its result back. -/
def c2schedule : List Bool := [false, true, false, true]

/-- A userData whose token is far from expiry, so the proactive path
stays quiet. -/
def c4user : UserData :=
  { pipedrive_api_domain := some "acme", api_domain := some "acme",
    qb_access_token := some "at-0", qb_refresh_token := some "rt0",
    qb_realm_id := some "93414", qb_expires_at := some 1000000000 }

/-- A userData whose QuickBooks token expiry is unknown but which has a
refresh token, so the proactive path fires. -/
def c5user : UserData :=
  { api_domain := some "acme", qb_access_token := some "at-0",
    qb_refresh_token := some "rt0", qb_realm_id := some "93414", qb_expires_at := none }

/-- A provider that rejects every refresh with an invalid_grant body. -/
def c5provider : Nat → Except ProviderError NewTokens :=
  fun _ => .error ⟨"error invalid_grant", "invalid_grant"⟩

/-- Four-byte little-endian encoding of one character code point. -/
def encodeChar (ch : Char) : List Nat :=
  [ch.toNat % 256, ch.toNat / 256 % 256, ch.toNat / 65536 % 256, ch.toNat / 16777216]

/-- Inverse of encodeChar over a whole byte list. -/
def decodeChars : List Nat → Option (List Char)
  | [] => some []
  | b0 :: b1 :: b2 :: b3 :: t =>
    match decodeChars t with
    | some r => some (Char.ofNat (b0 + 256 * b1 + 65536 * b2 + 16777216 * b3) :: r)
    | none => none
  | _ => none

/-- Byte encoding of a whole character list. -/
def encodeChars : List Char → List Nat
  | [] => []
  | c :: t => encodeChar c ++ encodeChars t

/-- Executable cipher instance used to exercise the encryption envelope
logic on concrete inputs. -/
def demoCipher : CipherCore where
  derive := fun s => [s.length % 256]
  encCore := fun _ _ x => (encodeChars x.data, [7])
  decCore := fun _ _ _ bytes => (decodeChars bytes).map fun l => String.mk l

/-- Concrete configuration with a sufficiently long secret. -/
def demoCfg : EncConfig := ⟨some "0123456789abcdef", none⟩

/-- Concrete configuration whose secret is too short. -/
def shortCfg : EncConfig := ⟨none, some "short"⟩

theorem decodeChars_encodeChars (cs : List Char) :
    decodeChars (encodeChars cs) = some cs := by
  induction cs with
  | nil => rfl
  | cons c t ih =>
    have hlt : c.toNat < 4294967296 := c.val.toNat_lt
    simp only [encodeChars, encodeChar, List.cons_append, List.nil_append, List.append_eq,
      decodeChars, ih]
    have hsum : c.toNat % 256 + 256 * (c.toNat / 256 % 256) + 65536 * (c.toNat / 65536 % 256) +
        16777216 * (c.toNat / 16777216) = c.toNat := by omega
    rw [hsum, Char.ofNat_toNat]

theorem encodeChars_lt (cs : List Char) : ∀ b ∈ encodeChars cs, b < 256 := by
  induction cs with
  | nil => intro b hb; simp [encodeChars] at hb
  | cons c t ih =>
    intro b hb
    have hlt : c.toNat < 4294967296 := c.val.toNat_lt
    simp only [encodeChars, encodeChar, List.mem_append] at hb
    rcases hb with hb | hb
    · simp only [List.mem_cons, List.not_mem_nil, or_false] at hb
      rcases hb with h | h | h | h <;> subst h <;> omega
    · exact ih b hb

theorem demoCipher_good : GoodCipher demoCipher := by
  refine ⟨?_, ?_, ?_⟩
  · intro key iv x
    show (decodeChars (encodeChars x.data)).map (fun l => String.mk l) = some x
    rw [decodeChars_encodeChars]
    rfl
  · intro key iv x
    exact encodeChars_lt x.data
  · intro key iv x b hb
    simp only [demoCipher, List.mem_cons, List.not_mem_nil, or_false] at hb
    subst hb; omega

theorem hexDigit_ne_colon (n : Nat) (h : n < 16) : hexDigit n ≠ ':' := by
  interval_cases n <;> decide

theorem hexEncode_no_colon (bs : List Nat) (h : ∀ b ∈ bs, b < 256) : ':' ∉ hexEncode bs := by
  induction bs with
  | nil => simp [hexEncode]
  | cons b t ih =>
    have hb : b < 256 := h b (List.mem_cons_self b t)
    simp only [hexEncode, List.mem_cons, not_or]
    exact ⟨fun e => hexDigit_ne_colon (b / 16) (by omega) e.symm,
      fun e => hexDigit_ne_colon (b % 16) (by omega) e.symm,
      ih (fun x hx => h x (List.mem_cons_of_mem _ hx))⟩

theorem splitColon_no_colon (a : List Char) (h : ':' ∉ a) : splitColon a = [a] := by
  induction a with
  | nil => rfl
  | cons c t ih =>
    simp only [List.mem_cons, not_or] at h
    obtain ⟨h1, h2⟩ := h
    simp only [splitColon]
    rw [if_neg (fun e => h1 e.symm), ih h2]

theorem splitColon_append (a r : List Char) (h : ':' ∉ a) :
    splitColon (a ++ ':' :: r) = a :: splitColon r := by
  induction a with
  | nil => simp [splitColon]
  | cons c t ih =>
    simp only [List.mem_cons, not_or] at h
    obtain ⟨h1, h2⟩ := h
    simp only [List.cons_append, List.append_eq, splitColon]
    rw [if_neg (fun e => h1 e.symm), ih h2]

theorem hexVal_hexDigit (n : Nat) (h : n < 16) : hexVal (hexDigit n) = some n := by
  interval_cases n <;> rfl

theorem hexDecode_hexEncode (bs : List Nat) (h : ∀ b ∈ bs, b < 256) :
    hexDecode (hexEncode bs) = some bs := by
  induction bs with
  | nil => rfl
  | cons b t ih =>
    have hb : b < 256 := h b (List.mem_cons_self b t)
    have ht : ∀ x ∈ t, x < 256 := fun x hx => h x (List.mem_cons_of_mem _ hx)
    have h1 : b / 16 < 16 := by omega
    have h2 : b % 16 < 16 := by omega
    simp only [hexEncode, hexDecode, hexVal_hexDigit _ h1, hexVal_hexDigit _ h2, ih ht]
    have hsum : 16 * (b / 16) + b % 16 = b := by omega
    rw [hsum]

theorem mk_ne_empty (l : List Char) (h : l ≠ []) : String.mk l ≠ "" := by
  intro he
  apply h
  have hd := congrArg String.data he
  simpa using hd

theorem getEncryptionKey_ok (c : CipherCore) (cfg : EncConfig) (h : goodKeyCfg cfg = true) :
    ∃ key, getEncryptionKey c cfg = .ok key := by
  cases hm : jsOr cfg.sessionSecret cfg.encryptionKey with
  | none => simp [goodKeyCfg, hm] at h
  | some s =>
    simp only [goodKeyCfg, hm] at h
    by_cases hs : s = ""
    · rw [if_pos hs] at h
      exact absurd h (by decide)
    · rw [if_neg hs] at h
      have hlen : 16 ≤ s.length := of_decide_eq_true h
      refine ⟨c.derive s, ?_⟩
      simp only [getEncryptionKey, hm]
      rw [if_neg hs, if_neg (by omega)]

theorem getEncryptionKey_error (c : CipherCore) (cfg : EncConfig)
    (h : goodKeyCfg cfg = false) : ∃ e, getEncryptionKey c cfg = .error e := by
  cases hm : jsOr cfg.sessionSecret cfg.encryptionKey with
  | none =>
    refine ⟨"Encryption key not configured. Please set SESSION_SECRET in secrets.", ?_⟩
    simp only [getEncryptionKey, hm]
  | some s =>
    simp only [goodKeyCfg, hm] at h
    by_cases hs : s = ""
    · refine ⟨"Encryption key not configured. Please set SESSION_SECRET in secrets.", ?_⟩
      simp only [getEncryptionKey, hm]
      rw [if_pos hs]
    · rw [if_neg hs] at h
      have hlen : s.length < 16 := by
        have hd := of_decide_eq_false h
        omega
      refine ⟨"Encryption key too short. Please use a stronger SESSION_SECRET.", ?_⟩
      simp only [getEncryptionKey, hm]
      rw [if_neg hs, if_pos hlen]

/-- Reduction of decrypt on a truthy argument to the three-segment
dispatch. -/
theorem decrypt_some (c : CipherCore) (cfg : EncConfig) (s : String) (hs : s ≠ "") :
    decrypt c cfg (some s) =
      match splitColon s.data with
      | [p0, p1, p2] => decryptSegments c cfg s p0 p1 p2
      | _ => some s := by
  simp only [decrypt]
  rw [if_neg hs]

/-- The try block of decrypt returns some outcome on any three segments:
the envelope decoding when it succeeds, the original string otherwise. -/
theorem decryptSegments_getD (c : CipherCore) (cfg : EncConfig) (s : String)
    (p0 p1 p2 : List Char) :
    decryptSegments c cfg s p0 p1 p2 =
      some ((envelopeDecodeSegments c cfg p0 p1 p2).getD s) := by
  unfold decryptSegments envelopeDecodeSegments
  cases hexDecode p0 with
  | none => rfl
  | some ivv =>
    cases hexDecode p1 with
    | none => rfl
    | some tagv =>
      cases hexDecode p2 with
      | none => rfl
      | some ctv =>
        cases getEncryptionKey c cfg with
        | error e => rfl
        | ok key =>
          show (match c.decCore key ivv tagv ctv with
                | some plain => some plain
                | none => some s) =
            some ((c.decCore key ivv tagv ctv).getD s)
          cases c.decCore key ivv tagv ctv <;> rfl

/-- Behaviour of decrypt on a well-formed three-segment hex envelope
under a configured key: the result of the authenticated decryption, or
the envelope itself when the tag does not verify. -/
theorem decrypt_envelope (c : CipherCore) (cfg : EncConfig) (key ivB tagB ctB : List Nat)
    (hkey : getEncryptionKey c cfg = .ok key)
    (hiv : ∀ b ∈ ivB, b < 256) (htag : ∀ b ∈ tagB, b < 256) (hct : ∀ b ∈ ctB, b < 256) :
    decrypt c cfg
      (some (String.mk (hexEncode ivB ++ ':' :: (hexEncode tagB ++ ':' :: hexEncode ctB)))) =
      match c.decCore key ivB tagB ctB with
      | some plain => some plain
      | none =>
        some (String.mk (hexEncode ivB ++ ':' :: (hexEncode tagB ++ ':' :: hexEncode ctB))) := by
  have hne : hexEncode ivB ++ ':' :: (hexEncode tagB ++ ':' :: hexEncode ctB) ≠ [] := by
    cases h0 : hexEncode ivB <;> simp
  have hsp : splitColon (hexEncode ivB ++ ':' :: (hexEncode tagB ++ ':' :: hexEncode ctB)) =
      [hexEncode ivB, hexEncode tagB, hexEncode ctB] := by
    rw [splitColon_append _ _ (hexEncode_no_colon _ hiv),
      splitColon_append _ _ (hexEncode_no_colon _ htag),
      splitColon_no_colon _ (hexEncode_no_colon _ hct)]
  rw [decrypt_some c cfg _ (mk_ne_empty _ hne), hsp]
  show decryptSegments c cfg _ (hexEncode ivB) (hexEncode tagB) (hexEncode ctB) = _
  unfold decryptSegments
  rw [hexDecode_hexEncode ivB hiv, hexDecode_hexEncode tagB htag,
    hexDecode_hexEncode ctB hct, hkey]

/-- C9 counterexample: the empty string does not consist of exactly
three colon-separated segments, yet decrypt returns null for it rather
than returning the string unchanged. -/
theorem c9_counterexample_empty_string :
    (splitColon ("" : String).data).length ≠ 3 ∧
    decrypt demoCipher demoCfg (some "") = none ∧
    (none : Option String) ≠ some "" := by
  refine ⟨by decide, rfl, by decide⟩

/-- C9 (amended): under a configured key of sufficient length and an iv
made of bytes, decrypt inverts encrypt on every non-empty plaintext,
encrypt maps null and empty input to null, and decrypt returns every
non-empty string that does not split into exactly three colon-separated
segments unchanged; for null and the empty string decrypt returns null
instead, which is the amendment. -/
theorem c9_roundtrip_amended (c : CipherCore) (cfg : EncConfig) (iv : List Nat)
    (hc : GoodCipher c) (hk : goodKeyCfg cfg = true) (hiv : ∀ b ∈ iv, b < 256) :
    (∀ x : String, x ≠ "" →
      ∃ env, encrypt c cfg iv (some x) = .ok (some env) ∧
        decrypt c cfg (some env) = some x) ∧
    encrypt c cfg iv none = .ok none ∧
    encrypt c cfg iv (some "") = .ok none ∧
    (∀ s : String, s ≠ "" → (splitColon s.data).length ≠ 3 →
      decrypt c cfg (some s) = some s) := by
  obtain ⟨key, hkey⟩ := getEncryptionKey_ok c cfg hk
  refine ⟨?_, rfl, rfl, ?_⟩
  · intro x hx
    refine ⟨String.mk (hexEncode iv ++ ':' :: (hexEncode (c.encCore key iv x).2 ++ ':' ::
      hexEncode (c.encCore key iv x).1)), ?_, ?_⟩
    · simp only [encrypt]
      rw [if_neg hx, hkey]
    · rw [decrypt_envelope c cfg key iv (c.encCore key iv x).2 (c.encCore key iv x).1 hkey hiv
        (hc.2.2 key iv x) (hc.2.1 key iv x), hc.1 key iv x]
  · intro s hs hlen
    rw [decrypt_some c cfg s hs]
    rcases hsp : splitColon s.data with _ | ⟨p0, _ | ⟨p1, _ | ⟨p2, _ | ⟨p3, rest⟩⟩⟩⟩
    · rfl
    · rfl
    · rfl
    · rw [hsp] at hlen
      simp at hlen
    · rfl

/-- C9 witness: the round trip evaluated on the demo cipher, the demo
configuration and a concrete plaintext. -/
theorem c9_roundtrip_amended_witness :
    ∃ env, encrypt demoCipher demoCfg [1, 2] (some "hi") = .ok (some env) ∧
      decrypt demoCipher demoCfg (some env) = some "hi" :=
  (c9_roundtrip_amended demoCipher demoCfg [1, 2] demoCipher_good (by decide)
    (by decide)).1 "hi" (by decide)

/-- Vanishing of the envelope decoding attempt whenever the configured
key is absent or too short. -/
theorem envelopeDecode_badKey (c : CipherCore) (cfg : EncConfig) (s : String)
    (h : goodKeyCfg cfg = false) : envelopeDecode c cfg s = none := by
  obtain ⟨e, he⟩ := getEncryptionKey_error c cfg h
  unfold envelopeDecode
  rcases splitColon s.data with _ | ⟨p0, _ | ⟨p1, _ | ⟨p2, _ | ⟨p3, rest⟩⟩⟩⟩ <;> try rfl
  show envelopeDecodeSegments c cfg p0 p1 p2 = none
  unfold envelopeDecodeSegments
  cases hexDecode p0 with
  | none => rfl
  | some ivv =>
    cases hexDecode p1 with
    | none => rfl
    | some tagv =>
      cases hexDecode p2 with
      | none => rfl
      | some ctv => rw [he]

/-- C10: decrypt is total and never throws: null and the empty string
give null, every other input yields either the decrypted plaintext of a
well-formed envelope or the original string unchanged, and under a
missing or too-short key decrypt silently passes every non-empty input
through while encrypt is the only function that fails fast. -/
theorem c10_decrypt_never_throws (c : CipherCore) (cfg : EncConfig) :
    decrypt c cfg none = none ∧
    decrypt c cfg (some "") = none ∧
    (∀ s : String, s ≠ "" →
      decrypt c cfg (some s) = some ((envelopeDecode c cfg s).getD s)) ∧
    (goodKeyCfg cfg = false →
      (∀ s : String, s ≠ "" → decrypt c cfg (some s) = some s) ∧
      (∀ iv : List Nat, ∀ x : String, x ≠ "" →
        ∃ e, encrypt c cfg iv (some x) = .error e)) := by
  have hchar : ∀ s : String, s ≠ "" →
      decrypt c cfg (some s) = some ((envelopeDecode c cfg s).getD s) := by
    intro s hs
    rw [decrypt_some c cfg s hs]
    unfold envelopeDecode
    rcases splitColon s.data with _ | ⟨p0, _ | ⟨p1, _ | ⟨p2, _ | ⟨p3, rest⟩⟩⟩⟩ <;> try rfl
    show decryptSegments c cfg s p0 p1 p2 =
      some ((envelopeDecodeSegments c cfg p0 p1 p2).getD s)
    exact decryptSegments_getD c cfg s p0 p1 p2
  refine ⟨rfl, rfl, hchar, ?_⟩
  intro hbad
  constructor
  · intro s hs
    rw [hchar s hs, envelopeDecode_badKey c cfg s hbad]
    rfl
  · intro iv x hx
    obtain ⟨e, he⟩ := getEncryptionKey_error c cfg hbad
    refine ⟨e, ?_⟩
    simp only [encrypt]
    rw [if_neg hx, he]

/-- C10 witness: with the short secret the stored value passes through
decrypt unchanged while encrypt throws. -/
theorem c10_decrypt_never_throws_witness :
    decrypt demoCipher shortCfg (some "deadbeef") = some "deadbeef" ∧
    (∃ e, encrypt demoCipher shortCfg [1] (some "x") = .error e) :=
  ⟨((c10_decrypt_never_throws demoCipher shortCfg).2.2.2 rfl).1 "deadbeef" (by decide),
    ((c10_decrypt_never_throws demoCipher shortCfg).2.2.2 rfl).2 [1] "x" (by decide)⟩

/-- C6 (code bug): after the QuickBooks callback stored tenant acme
attempting to save alternate numeric id 5521 alongside the tokens, the
canonical key still resolves, but the numeric id resolves to nothing,
both through the plain store lookup and through the /api/user-status
resolver even when the numeric id is passed explicitly: the users table
has no pipedrive_numeric_id column, setUser silently drops the property
the callback tried to save, and rowToUserData never returns one for the
scan to compare. -/
theorem c6_alternate_numeric_id_lost :
    (∃ u, getUser idF c6db "acme" = some u ∧ u.qb_access_token = some "qb-at") ∧
    getUser idF c6db "5521" = none ∧
    userStatusResolve idF c6db "5521" none (some "5521") = none := by
  exact ⟨⟨_, rfl, rfl⟩, rfl, rfl⟩

/-- C7 counterexample: the plain store lookup returns the acmecorp
record for the identifier mec, although mec matches no identifier
variant exactly; the decoration-tolerant substring scan ran without any
caller requesting fuzzy resolution. -/
theorem c7_counterexample_unrequested_fuzzy :
    getUserRow c7db "mec" = some c7row ∧
    ∀ tryId ∈ possibleIds "mec", c7row.pipedrive_user_id ≠ tryId := by
  exact ⟨rfl, by decide⟩

/-- A hit in a sequence of find? lookups satisfies the predicate of one
of the lookups. -/
theorem firstSome_find_mem {α : Type} (db : List α) (ids : List String)
    (p : String → α → Bool) (r : α)
    (h : firstSome (ids.map fun i => db.find? (p i)) = some r) :
    ∃ i ∈ ids, p i r = true := by
  induction ids with
  | nil => simp [firstSome] at h
  | cons i t ih =>
    simp only [List.map] at h
    cases hf : db.find? (p i) with
    | some x =>
      rw [hf] at h
      simp only [firstSome] at h
      injection h with h
      subst h
      exact ⟨i, List.mem_cons_self i t, List.find?_some hf⟩
    | none =>
      rw [hf] at h
      simp only [firstSome] at h
      obtain ⟨i2, hm, hp⟩ := ih h
      exact ⟨i2, List.mem_cons_of_mem _ hm, hp⟩

/-- C7 (amended): getUser tries exact canonical-key variants first but
then always falls through to the case-insensitive substring scan on the
domain column, with no caller-supplied fuzzy flag anywhere in its
signature; consequently every record it returns either matches one
identifier variant exactly or merely contains a variant or the
normalized identifier inside its domain field. -/
theorem c7_get_always_falls_through (db : List Row) (userId : String) (r : Row)
    (h : getUserRow db userId = some r) :
    (∃ tryId ∈ possibleIds userId, r.pipedrive_user_id = tryId) ∨
    (∃ d, r.pipedrive_api_domain = some d ∧
      ∃ tryId ∈ possibleIds userId,
        (ilikeContains d tryId || ilikeContains d (normalizeUserId userId)) = true) := by
  simp only [getUserRow] at h
  cases hex : firstSome ((possibleIds userId).map fun tryId =>
      db.find? fun row => row.pipedrive_user_id == tryId) with
  | some r2 =>
    rw [hex] at h
    injection h with h
    left
    obtain ⟨i, hm, hp⟩ := firstSome_find_mem db (possibleIds userId)
      (fun i row => row.pipedrive_user_id == i) r (h ▸ hex)
    exact ⟨i, hm, by simpa using hp⟩
  | none =>
    rw [hex] at h
    right
    obtain ⟨i, hm, hp⟩ := firstSome_find_mem db (possibleIds userId)
      (fun i row =>
        match row.pipedrive_api_domain with
        | some d => ilikeContains d i || ilikeContains d (normalizeUserId userId)
        | none => false) r h
    cases hd : r.pipedrive_api_domain with
    | none => rw [hd] at hp; simp at hp
    | some d =>
      rw [hd] at hp
      exact ⟨d, rfl, i, hm, hp⟩

/-- C7 witness: the amended theorem evaluated at the fuzzy hit. -/
theorem c7_get_always_falls_through_witness :
    (∃ tryId ∈ possibleIds "mec", c7row.pipedrive_user_id = tryId) ∨
    (∃ d, c7row.pipedrive_api_domain = some d ∧
      ∃ tryId ∈ possibleIds "mec",
        (ilikeContains d tryId || ilikeContains d (normalizeUserId "mec")) = true) :=
  c7_get_always_falls_through c7db "mec" c7row rfl

/-- C8 counterexample: updating the acme record with only a Pipedrive
access token nulls the stored QuickBooks realm, instead of leaving the
unsupplied column unchanged as the claim states. -/
theorem c8_counterexample_nulls_unsupplied :
    ∃ r, setUser idF c8db "acme" { access_token := some "x" } 9 = [r] ∧
      r.qb_realm_id = none ∧ c8row.qb_realm_id = some "9341453907" := by
  exact ⟨_, rfl, rfl, rfl⟩

/-- C8 (amended): setUser upserts by normalized canonical key, but the
update overwrites every data column with the supplied value, an absent
property becoming NULL, rather than merging column-by-column; the key
and created_at survive every update, updated_at is stamped on every
write, and an insert stamps created_at and updated_at together. -/
theorem c8_set_overwrites_columns (encryptF : Option String → Option String) (db : List Row)
    (userId : String) (data : SetData) (now : Nat) :
    ((db.any fun r => r.pipedrive_user_id == normalizeUserId userId) = true →
      setUser encryptF db userId data now =
        db.map fun r =>
          if r.pipedrive_user_id == normalizeUserId userId then updatedRow encryptF r data now
          else r) ∧
    ((db.any fun r => r.pipedrive_user_id == normalizeUserId userId) = false →
      setUser encryptF db userId data now = db ++ [insertedRow encryptF userId data now]) ∧
    (∀ r : Row,
      (updatedRow encryptF r data now).pipedrive_user_id = r.pipedrive_user_id ∧
      (updatedRow encryptF r data now).created_at = r.created_at ∧
      (updatedRow encryptF r data now).updated_at = now ∧
      (updatedRow encryptF r data now).qb_realm_id = data.qb_realm_id ∧
      (updatedRow encryptF r data now).qb_access_token = encryptF data.qb_access_token ∧
      (updatedRow encryptF r data now).shipstation_api_key = data.shipstation_api_key) ∧
    (insertedRow encryptF userId data now).pipedrive_user_id = normalizeUserId userId ∧
    (insertedRow encryptF userId data now).created_at = now ∧
    (insertedRow encryptF userId data now).updated_at = now := by
  refine ⟨?_, ?_, fun r => ⟨rfl, rfl, rfl, rfl, rfl, rfl⟩, rfl, rfl, rfl⟩
  · intro hx
    simp only [setUser]
    rw [if_pos hx]
  · intro hx
    simp only [setUser]
    rw [if_neg (by simp [hx])]

/-- C8 witness: the overwrite equation and the timestamp facts evaluated
on the concrete acme record. -/
theorem c8_set_overwrites_columns_witness :
    setUser idF c8db "acme" { access_token := some "x" } 9 =
      c8db.map (fun r =>
        if r.pipedrive_user_id == normalizeUserId "acme" then
          updatedRow idF r { access_token := some "x" } 9
        else r) ∧
    (updatedRow idF c8row { access_token := some "x" } 9).created_at = c8row.created_at ∧
    (updatedRow idF c8row { access_token := some "x" } 9).updated_at = 9 :=
  ⟨(c8_set_overwrites_columns idF c8db "acme" { access_token := some "x" } 9).1 (by decide),
   ((c8_set_overwrites_columns idF c8db "acme" { access_token := some "x" } 9).2.2.1 c8row).2.1,
   ((c8_set_overwrites_columns idF c8db "acme" { access_token := some "x" } 9).2.2.1
     c8row).2.2.1⟩

/-- Every row stored under the normalized key after a setUser write
carries exactly the QuickBooks fields of the written data, with the
update stamp. -/
theorem setUser_key_fields (encryptF : Option String → Option String) (db : List Row)
    (userId : String) (data : SetData) (now : Nat) :
    ∀ r ∈ setUser encryptF db userId data now,
      r.pipedrive_user_id = normalizeUserId userId →
      r.qb_access_token = encryptF data.qb_access_token ∧
      r.qb_refresh_token = encryptF data.qb_refresh_token ∧
      r.qb_expires_at = data.qb_expires_at ∧
      r.updated_at = now := by
  intro r hr hkey
  simp only [setUser] at hr
  by_cases hx : (db.any fun row => row.pipedrive_user_id == normalizeUserId userId) = true
  · rw [if_pos hx] at hr
    obtain ⟨r0, hr0, hmap⟩ := List.mem_map.mp hr
    by_cases hk : (r0.pipedrive_user_id == normalizeUserId userId) = true
    · rw [if_pos hk] at hmap
      rw [← hmap]
      exact ⟨rfl, rfl, rfl, rfl⟩
    · rw [if_neg hk] at hmap
      rw [← hmap] at hkey
      exact absurd (beq_iff_eq.mpr hkey) hk
  · rw [if_neg hx] at hr
    rcases List.mem_append.mp hr with hin | hin
    · have hany : (db.any fun row => row.pipedrive_user_id == normalizeUserId userId) = true :=
        List.any_eq_true.mpr ⟨r, hin, beq_iff_eq.mpr hkey⟩
      exact absurd hany hx
    · simp only [List.mem_singleton] at hin
      subst hin
      exact ⟨rfl, rfl, rfl, rfl⟩

/-- refreshAndSaveToken with no refresh token available: the skip
sentinel, and no write. -/
theorem refreshAndSaveToken_skipped (encryptF : Option String → Option String) (db : List Row)
    (userId : String) (userData : UserData) (pr : Except ProviderError NewTokens) (now : Nat)
    (h : jsTruthy userData.qb_refresh_token = false) :
    refreshAndSaveToken encryptF db userId userData pr now = (.skipped, db) := by
  unfold refreshAndSaveToken
  rw [h]
  rfl

/-- refreshAndSaveToken on a successful provider exchange: the one
setUser write of the whole rotated pair. -/
theorem refreshAndSaveToken_ok (encryptF : Option String → Option String) (db : List Row)
    (userId : String) (userData : UserData) (nt : NewTokens) (now : Nat)
    (h : jsTruthy userData.qb_refresh_token = true) :
    refreshAndSaveToken encryptF db userId userData (.ok nt) now =
      (.refreshed (refreshedUserData userData nt now),
        setUser encryptF db userId (toSetData (refreshedUserData userData nt now)) now) := by
  unfold refreshAndSaveToken
  rw [h]
  rfl

/-- Classification performed by qbAuth refreshToken on a provider
error. -/
theorem qbRefreshToken_error_eq (e : ProviderError) :
    qbRefreshToken (.error e) =
      if revocationSignature e.stringified then Except.error (.refreshTokenExpired qbReauthMsg)
      else Except.error (.other e) := rfl

/-- Shape of refreshAndSaveToken when the refresh engine threw: one of
the two failure messages, and the untouched store. -/
theorem refreshAndSaveToken_failed_form (encryptF : Option String → Option String)
    (db : List Row) (userId : String) (userData : UserData)
    (pr : Except ProviderError NewTokens) (now : Nat) (err : RefreshError)
    (h : jsTruthy userData.qb_refresh_token = true)
    (hq : qbRefreshToken pr = .error err) :
    refreshAndSaveToken encryptF db userId userData pr now =
      if invalidMsgSignature (refreshErrMessage err) then (.failed qbInvalidMsg, db)
      else (.failed (refreshErrMessage err), db) := by
  unfold refreshAndSaveToken
  rw [h, hq]
  rfl

/-- refreshAndSaveToken never writes anything when the provider exchange
failed. -/
theorem refreshAndSaveToken_error_db (encryptF : Option String → Option String) (db : List Row)
    (userId : String) (userData : UserData) (e : ProviderError) (now : Nat) :
    (refreshAndSaveToken encryptF db userId userData (.error e) now).2 = db := by
  cases hb : jsTruthy userData.qb_refresh_token with
  | false =>
    rw [refreshAndSaveToken_skipped encryptF db userId userData (.error e) now hb]
  | true =>
    cases hq : qbRefreshToken (Except.error e) with
    | ok nt =>
      exfalso
      rw [qbRefreshToken_error_eq] at hq
      split at hq <;> simp at hq
    | error err =>
      rw [refreshAndSaveToken_failed_form encryptF db userId userData (.error e) now err hb hq]
      split <;> rfl

/-- refreshAndSaveToken on a provider rejection carrying a revocation
signature: the reconnect failure, and no write. -/
theorem refreshAndSaveToken_revoked (encryptF : Option String → Option String) (db : List Row)
    (userId : String) (userData : UserData) (e : ProviderError) (now : Nat)
    (h : jsTruthy userData.qb_refresh_token = true)
    (hrev : revocationSignature e.stringified = true) :
    refreshAndSaveToken encryptF db userId userData (.error e) now =
      (.failed qbInvalidMsg, db) := by
  have hq : qbRefreshToken (Except.error e) =
      Except.error (.refreshTokenExpired qbReauthMsg) := by
    rw [qbRefreshToken_error_eq, if_pos hrev]
  rw [refreshAndSaveToken_failed_form encryptF db userId userData (.error e) now
    (.refreshTokenExpired qbReauthMsg) h hq, if_pos (by decide)]

/-- C3: a refresh persists the rotated access and refresh token together
with the new expiry through a single setUser write, and a failed or
skipped refresh attempt leaves the store completely untouched, so no
partial pair is ever persisted. -/
theorem c3_refresh_persists_pair_atomically (encryptF : Option String → Option String)
    (db : List Row) (userId : String) (userData : UserData)
    (pr : Except ProviderError NewTokens) (now : Nat) :
    (∀ msg, (refreshAndSaveToken encryptF db userId userData pr now).1 = .failed msg →
      (refreshAndSaveToken encryptF db userId userData pr now).2 = db) ∧
    ((refreshAndSaveToken encryptF db userId userData pr now).1 = .skipped →
      (refreshAndSaveToken encryptF db userId userData pr now).2 = db) ∧
    (∀ nt, pr = .ok nt → jsTruthy userData.qb_refresh_token = true →
      refreshAndSaveToken encryptF db userId userData pr now =
        (.refreshed (refreshedUserData userData nt now),
          setUser encryptF db userId (toSetData (refreshedUserData userData nt now)) now) ∧
      ∀ r ∈ (refreshAndSaveToken encryptF db userId userData pr now).2,
        r.pipedrive_user_id = normalizeUserId userId →
        r.qb_access_token = encryptF (some nt.access_token) ∧
        r.qb_refresh_token = encryptF (some nt.refresh_token) ∧
        r.qb_expires_at = some (now + nt.expires_in * 1000)) := by
  refine ⟨?_, ?_, ?_⟩
  · intro msg hmsg
    cases hb : jsTruthy userData.qb_refresh_token with
    | false =>
      rw [refreshAndSaveToken_skipped encryptF db userId userData pr now hb]
    | true =>
      cases pr with
      | ok nt =>
        rw [refreshAndSaveToken_ok encryptF db userId userData nt now hb] at hmsg
        simp at hmsg
      | error e => exact refreshAndSaveToken_error_db encryptF db userId userData e now
  · intro hsk
    cases hb : jsTruthy userData.qb_refresh_token with
    | false =>
      rw [refreshAndSaveToken_skipped encryptF db userId userData pr now hb]
    | true =>
      cases pr with
      | ok nt =>
        rw [refreshAndSaveToken_ok encryptF db userId userData nt now hb] at hsk
        simp at hsk
      | error e => exact refreshAndSaveToken_error_db encryptF db userId userData e now
  · intro nt hpr hb
    subst hpr
    have heq := refreshAndSaveToken_ok encryptF db userId userData nt now hb
    refine ⟨heq, ?_⟩
    rw [heq]
    intro r hr hkey
    have hfields := setUser_key_fields encryptF db userId
      (toSetData (refreshedUserData userData nt now)) now r hr hkey
    exact ⟨hfields.1, hfields.2.1, hfields.2.2.1⟩

/-- C3 witness: the success equation and the stored fields evaluated on
the concrete acme record and a concrete new pair. -/
theorem c3_refresh_persists_pair_atomically_witness :
    refreshAndSaveToken idF [c2row] "acme" c2user (.ok ⟨"at-1", "rt-1", 3600⟩) 1000 =
      (.refreshed (refreshedUserData c2user ⟨"at-1", "rt-1", 3600⟩ 1000),
        setUser idF [c2row] "acme"
          (toSetData (refreshedUserData c2user ⟨"at-1", "rt-1", 3600⟩ 1000)) 1000) :=
  ((c3_refresh_persists_pair_atomically idF [c2row] "acme" c2user
    (.ok ⟨"at-1", "rt-1", 3600⟩) 1000).2.2 ⟨"at-1", "rt-1", 3600⟩ rfl (by decide)).1

/-- The proactive preamble does nothing when the token does not need a
refresh. -/
theorem proactivePhase_no (encryptF : Option String → Option String) (db : List Row)
    (userId : String) (userData : UserData)
    (provider : Nat → Except ProviderError NewTokens) (now : Nat)
    (h : tokenNeedsRefresh userData now = false) :
    proactivePhase encryptF db userId userData provider now = (userData, db, 0) := by
  unfold proactivePhase
  rw [h]
  rfl

/-- makeQBApiCall with a quiet proactive preamble: one api call, and on a
401 the reactive handler starting from the untouched store. -/
theorem makeQBApiCall_noProactive {α : Type} (encryptF : Option String → Option String)
    (db : List Row) (userId : String) (userData : UserData)
    (provider : Nat → Except ProviderError NewTokens)
    (apiCall : Nat → UserData → ApiResult α) (now : Nat)
    (h : tokenNeedsRefresh userData now = false) :
    makeQBApiCall encryptF db userId userData provider apiCall now =
      match apiCall 0 userData with
      | .ok v => (.ok v, db, ⟨0, 1⟩)
      | .err status msg =>
        if status == 401 then reactive401 encryptF db userId userData provider 0 apiCall now
        else (.error (.api status msg), db, ⟨0, 1⟩) := by
  unfold makeQBApiCall
  rw [proactivePhase_no encryptF db userId userData provider now h]

/-- The 401 handler after a successful reactive refresh: persist the new
pair and retry the original call exactly once. -/
theorem reactive401_refreshed {α : Type} (encryptF : Option String → Option String)
    (db1 : List Row) (userId : String) (cur : UserData)
    (provider : Nat → Except ProviderError NewTokens) (rc : Nat)
    (apiCall : Nat → UserData → ApiResult α) (now : Nat) (nt : NewTokens)
    (htok : jsTruthy cur.qb_refresh_token = true)
    (hp : provider rc = .ok nt) :
    reactive401 encryptF db1 userId cur provider rc apiCall now =
      match apiCall 1 (refreshedUserData cur nt now) with
      | .ok v =>
        (.ok v, setUser encryptF db1 userId (toSetData (refreshedUserData cur nt now)) now,
          ⟨rc + 1, 2⟩)
      | .err _ m2 =>
        (.error (.hardAuth (jsOrString m2 qbGenericAuthMsg)),
          setUser encryptF db1 userId (toSetData (refreshedUserData cur nt now)) now,
          ⟨rc + 1, 2⟩) := by
  unfold reactive401
  rw [hp, refreshAndSaveToken_ok encryptF db1 userId cur nt now htok]

/-- The 401 handler when the reactive refresh is rejected with a
revocation signature: the reconnect failure surfaces at once and the
original call is not retried. -/
theorem reactive401_revoked {α : Type} (encryptF : Option String → Option String)
    (db1 : List Row) (userId : String) (cur : UserData)
    (provider : Nat → Except ProviderError NewTokens) (rc : Nat)
    (apiCall : Nat → UserData → ApiResult α) (now : Nat) (e : ProviderError)
    (htok : jsTruthy cur.qb_refresh_token = true)
    (hp : provider rc = .error e)
    (hrev : revocationSignature e.stringified = true) :
    reactive401 encryptF db1 userId cur provider rc apiCall now =
      (.error (.hardAuth qbInvalidMsg), db1, ⟨rc + 1, 1⟩) := by
  unfold reactive401
  rw [hp, refreshAndSaveToken_revoked encryptF db1 userId cur e now htok hrev]
  rfl

/-- C4: when the first api call answers 401 and the reactive refresh
succeeds, the original request is retried exactly once with the
refreshed credentials; if that single retry fails again, the failure
surfaces as a hard error with no further refresh or retry. In both
outcomes the trace shows one refresh exchange and two api invocations. -/
theorem c4_retry_exactly_once {α : Type} (encryptF : Option String → Option String)
    (db : List Row) (userId : String) (userData : UserData)
    (provider : Nat → Except ProviderError NewTokens)
    (apiCall : Nat → UserData → ApiResult α) (now : Nat) (m0 : String) (nt : NewTokens)
    (hpro : tokenNeedsRefresh userData now = false)
    (htok : jsTruthy userData.qb_refresh_token = true)
    (h0 : apiCall 0 userData = .err 401 m0)
    (hp : provider 0 = .ok nt) :
    (∀ v, apiCall 1 (refreshedUserData userData nt now) = .ok v →
      makeQBApiCall encryptF db userId userData provider apiCall now =
        (.ok v,
          setUser encryptF db userId (toSetData (refreshedUserData userData nt now)) now,
          ⟨1, 2⟩)) ∧
    (∀ st m1, apiCall 1 (refreshedUserData userData nt now) = .err st m1 →
      makeQBApiCall encryptF db userId userData provider apiCall now =
        (.error (.hardAuth (jsOrString m1 qbGenericAuthMsg)),
          setUser encryptF db userId (toSetData (refreshedUserData userData nt now)) now,
          ⟨1, 2⟩)) := by
  have hmain := makeQBApiCall_noProactive encryptF db userId userData provider apiCall now hpro
  rw [h0] at hmain
  have hre := reactive401_refreshed encryptF db userId userData provider 0 apiCall now nt
    htok hp
  constructor
  · intro v h1
    rw [hmain]
    show reactive401 encryptF db userId userData provider 0 apiCall now = _
    rw [hre, h1]
  · intro st m1 h1
    rw [hmain]
    show reactive401 encryptF db userId userData provider 0 apiCall now = _
    rw [hre, h1]

/-- C4 witness: the retry-once behaviour evaluated on concrete data
where the first call answers 401 and the retry succeeds. -/
theorem c4_retry_exactly_once_witness :
    makeQBApiCall idF [c2row] "acme" c4user
      (fun _ => .ok ⟨"at-1", "rt-1", 3600⟩)
      (fun n _ => if n == 0 then ApiResult.err 401 "unauthorized" else ApiResult.ok "done")
      1000 =
      (.ok "done",
        setUser idF [c2row] "acme"
          (toSetData (refreshedUserData c4user ⟨"at-1", "rt-1", 3600⟩ 1000)) 1000,
        ⟨1, 2⟩) :=
  (c4_retry_exactly_once idF [c2row] "acme" c4user
    (fun _ => .ok ⟨"at-1", "rt-1", 3600⟩)
    (fun n _ => if n == 0 then ApiResult.err 401 "unauthorized" else ApiResult.ok "done")
    1000 "unauthorized" ⟨"at-1", "rt-1", 3600⟩
    (by decide) (by decide) rfl rfl).1 "done" rfl

/-- C5 counterexample: the proactive refresh is answered with an
invalid_grant body, yet the wrapper swallows the failure, performs the
original call anyway and hands the caller a success, instead of
surfacing a reauthorization-required error and skipping the call. -/
theorem c5_counterexample_proactive_swallow :
    revocationSignature ("error invalid_grant" : String) = true ∧
    tokenNeedsRefresh c5user 1000 = true ∧
    makeQBApiCall idF [] "acme" c5user c5provider (fun _ _ => ApiResult.ok 42) 1000 =
      (.ok 42, [], ⟨1, 1⟩) := by
  exact ⟨by decide, rfl, rfl⟩

/-- C5 (amended): the refresh engine maps a provider error body carrying
invalid_grant, expired or revoked onto the distinct
REFRESH_TOKEN_EXPIRED reconnect error, and when such a rejection happens
during the reactive refresh after a 401 the wrapper surfaces the
reconnect message immediately and never retries the original call; a
proactive refresh rejection, however, is swallowed and the original call
still proceeds with the existing token. -/
theorem c5_reactive_revocation_surfaces {α : Type} (encryptF : Option String → Option String)
    (db : List Row) (userId : String) (userData : UserData)
    (provider : Nat → Except ProviderError NewTokens)
    (apiCall : Nat → UserData → ApiResult α) (now : Nat) (m0 : String) (e : ProviderError)
    (hpro : tokenNeedsRefresh userData now = false)
    (htok : jsTruthy userData.qb_refresh_token = true)
    (h0 : apiCall 0 userData = .err 401 m0)
    (hp : provider 0 = .error e)
    (hrev : revocationSignature e.stringified = true) :
    qbRefreshToken (.error e) = .error (.refreshTokenExpired qbReauthMsg) ∧
    makeQBApiCall encryptF db userId userData provider apiCall now =
      (.error (.hardAuth qbInvalidMsg), db, ⟨1, 1⟩) := by
  refine ⟨by rw [qbRefreshToken_error_eq, if_pos hrev], ?_⟩
  have hmain := makeQBApiCall_noProactive encryptF db userId userData provider apiCall now hpro
  rw [h0] at hmain
  rw [hmain]
  show reactive401 encryptF db userId userData provider 0 apiCall now = _
  rw [reactive401_revoked encryptF db userId userData provider 0 apiCall now e htok hp hrev]

/-- C5 witness: the reactive revocation evaluated on concrete data. -/
theorem c5_reactive_revocation_surfaces_witness :
    makeQBApiCall idF [c2row] "acme" c4user c5provider
      (fun n _ => if n == 0 then ApiResult.err 401 "unauthorized" else ApiResult.ok 7) 1000 =
      (.error (.hardAuth qbInvalidMsg), [c2row], ⟨1, 1⟩) :=
  (c5_reactive_revocation_surfaces idF [c2row] "acme" c4user c5provider
    (fun n _ => if n == 0 then ApiResult.err 401 "unauthorized" else ApiResult.ok 7)
    1000 "unauthorized" ⟨"error invalid_grant", "invalid_grant"⟩
    (by decide) (by decide) rfl rfl (by decide)).2

/-- C2 counterexample: with both concurrent callers holding the same
loaded userData and stale refresh token, the interleaving where both
perform their provider exchange before either completes makes the
provider serve two refresh calls, and the second caller ends in the
reconnect failure instead of observing the resulting valid token. -/
theorem c2_counterexample_double_refresh :
    (concRun idF "acme" c2user 1000 c2start c2schedule).provider.calls ≠ 1 ∧
    (concRun idF "acme" c2user 1000 c2start c2schedule).b =
      .done (.failed qbInvalidMsg) := by
  exact ⟨by decide, rfl⟩

/-- C2 (amended): refresh attempts are not serialized per tenant and
provider; under the double-submission interleaving the provider serves
two refresh exchanges, the first caller refreshes successfully and
persists the rotated pair through setUser, while the second caller
submits the now-stale token, is rejected with invalid_grant, and
surfaces the reconnect failure instead of reusing the first result. -/
theorem c2_unserialized_refresh_race :
    (concRun idF "acme" c2user 1000 c2start c2schedule).provider.calls = 2 ∧
    (concRun idF "acme" c2user 1000 c2start c2schedule).a =
      .done (.refreshed (refreshedUserData c2user ⟨"at-rt0+", "rt0+", 3600⟩ 1000)) ∧
    (concRun idF "acme" c2user 1000 c2start c2schedule).db =
      setUser idF [c2row] "acme"
        (toSetData (refreshedUserData c2user ⟨"at-rt0+", "rt0+", 3600⟩ 1000)) 1000 ∧
    (concRun idF "acme" c2user 1000 c2start c2schedule).b ≠
      .done (.refreshed (refreshedUserData c2user ⟨"at-rt0+", "rt0+", 3600⟩ 1000)) := by
  exact ⟨rfl, rfl, rfl, by decide⟩

/-- A find? hit is a member satisfying the predicate. -/
theorem find_mem_pred {α : Type} (p : α → Bool) (l : List α) (a : α)
    (h : l.find? p = some a) : a ∈ l ∧ p a = true := by
  induction l with
  | nil => simp [List.find?] at h
  | cons x t ih =>
    simp only [List.find?] at h
    cases hp : p x with
    | true =>
      rw [hp] at h
      have h2 : some x = some a := h
      injection h2 with h2
      subst h2
      exact ⟨List.mem_cons_self x t, hp⟩
    | false =>
      rw [hp] at h
      have h2 : t.find? p = some a := h
      obtain ⟨hm, hp2⟩ := ih h2
      exact ⟨List.mem_cons_of_mem x hm, hp2⟩

/-- The qbTokensByDomain bookkeeping preserves the key invariant and
touches nothing else. -/
theorem qbTrack_inv (acc : AttachScan) (key : String) (u : UserData)
    (hacc : QbInv acc.qbByDomain) :
    QbInv (qbTrack acc key u).qbByDomain ∧
    (qbTrack acc key u).pdUsers = acc.pdUsers ∧
    (qbTrack acc key u).directHit = acc.directHit := by
  unfold qbTrack
  split
  · split
    next d heq =>
      split
      · exact ⟨hacc, rfl, rfl⟩
      · refine ⟨?_, rfl, rfl⟩
        intro e he
        rcases List.mem_append.mp he with hin | hin
        · exact hacc e hin
        · simp only [List.mem_singleton] at hin
          subst hin
          exact ⟨d, heq, rfl⟩
    next heq => exact ⟨hacc, rfl, rfl⟩
  · exact ⟨hacc, rfl, rfl⟩

/-- Inversion of the normalized-domain computation. -/
theorem normDomainOpt_inv (o : Option String) (fd : String) (h : normDomainOpt o = some fd) :
    ∃ d, o = some d ∧ stripHttps d = fd := by
  cases o with
  | none => simp [normDomainOpt] at h
  | some d =>
    by_cases hz : stripHttps d = ""
    · simp [normDomainOpt, hz] at h
    · simp [normDomainOpt, hz] at h
      exact ⟨d, rfl, h⟩

/-- The collected Pipedrive entry satisfies the domain invariant. -/
theorem pdEntryOf_inv (key : String) (u : UserData) :
    ∀ fd, (pdEntryOf key u).apiDomain = some fd →
      ∃ d, u.api_domain = some d ∧ stripHttps d = fd := by
  intro fd hfd
  have h2 : normDomainOpt u.api_domain = some fd := hfd
  exact normDomainOpt_inv u.api_domain fd h2

/-- Unfolding equation of the scan on a key that loads no user. -/
theorem attachScan_cons_none (decryptF : Option String → Option String) (db : List Row)
    (providedUserId key : String) (rest : List String) (acc : AttachScan)
    (hg : getUser decryptF db key = none) :
    attachScan decryptF db providedUserId (key :: rest) acc =
      attachScan decryptF db providedUserId rest acc := by
  conv_lhs => rw [attachScan]
  rw [hg]

/-- Unfolding equation of the scan on a key that loads a user. -/
theorem attachScan_cons_some (decryptF : Option String → Option String) (db : List Row)
    (providedUserId key : String) (rest : List String) (acc : AttachScan) (u : UserData)
    (hg : getUser decryptF db key = some u) :
    attachScan decryptF db providedUserId (key :: rest) acc =
      (if jsTruthy u.access_token then
        if attachRelated providedUserId key u then
          { qbTrack acc key u with directHit := some (key, u) }
        else
          attachScan decryptF db providedUserId rest
            { qbTrack acc key u with
              pdUsers := (qbTrack acc key u).pdUsers ++ [pdEntryOf key u] }
      else attachScan decryptF db providedUserId rest (qbTrack acc key u)) := by
  conv_lhs => rw [attachScan]
  rw [hg]

/-- The scan loop preserves both invariants. -/
theorem attachScan_inv (decryptF : Option String → Option String) (db : List Row)
    (providedUserId : String) (keys : List String) (acc : AttachScan)
    (hq : QbInv acc.qbByDomain) (hp : PdInv acc.pdUsers) :
    QbInv (attachScan decryptF db providedUserId keys acc).qbByDomain ∧
    PdInv (attachScan decryptF db providedUserId keys acc).pdUsers := by
  induction keys generalizing acc with
  | nil => exact ⟨hq, hp⟩
  | cons key rest ih =>
    cases hg : getUser decryptF db key with
    | none =>
      rw [attachScan_cons_none decryptF db providedUserId key rest acc hg]
      exact ih acc hq hp
    | some u =>
      rw [attachScan_cons_some decryptF db providedUserId key rest acc u hg]
      obtain ⟨hq1, hpd1, _⟩ := qbTrack_inv acc key u hq
      have hp1 : PdInv (qbTrack acc key u).pdUsers := by rw [hpd1]; exact hp
      by_cases ha : jsTruthy u.access_token = true
      · rw [if_pos ha]
        by_cases hrel : attachRelated providedUserId key u = true
        · rw [if_pos hrel]
          exact ⟨hq1, hp1⟩
        · rw [if_neg hrel]
          apply ih
          · exact hq1
          · intro en hen fd hfd
            rcases List.mem_append.mp hen with hin | hin
            · exact hp1 en hin fd hfd
            · simp only [List.mem_singleton] at hin
              subst hin
              exact pdEntryOf_inv key u fd hfd
      · rw [if_neg ha]
        exact ih _ hq1 hp1

/-- The stable maximum is a member of the list. -/
theorem pickFreshest_mem (l : List PdEntry) (e : PdEntry) (h : pickFreshest l = some e) :
    e ∈ l := by
  induction l generalizing e with
  | nil => simp [pickFreshest] at h
  | cons a t ih =>
    simp only [pickFreshest] at h
    cases hr : pickFreshest t with
    | none =>
      rw [hr] at h
      have h2 : some a = some e := h
      injection h2 with h2
      subst h2
      exact List.mem_cons_self a t
    | some m =>
      rw [hr] at h
      have h2 : (if m.createdAt > a.createdAt then some m else some a) = some e := h
      by_cases hgt : m.createdAt > a.createdAt
      · rw [if_pos hgt] at h2
        injection h2 with h2
        subst h2
        exact List.mem_cons_of_mem a (ih m hr)
      · rw [if_neg hgt] at h2
        injection h2 with h2
        subst h2
        exact List.mem_cons_self a t

/-- A qbTokensByDomain hit is an entry of the object under the looked-up
key. -/
theorem lookupDomain_mem (l : List (String × String × UserData)) (d : String) (k : String)
    (u : UserData) (h : lookupDomain l d = some (k, u)) : (d, k, u) ∈ l := by
  unfold lookupDomain at h
  cases hf : l.find? fun e => e.1 == d with
  | none => rw [hf] at h; exact absurd h (by simp)
  | some en =>
    rw [hf] at h
    have h2 : some en.2 = some (k, u) := h
    injection h2 with h2
    obtain ⟨hmem, hpred⟩ := find_mem_pred (fun e => e.1 == d) l en hf
    have h1 : en.1 = d := by simpa using hpred
    have h3 : (d, k, u) = en := by
      rw [← h1, ← h2]
    rw [h3]
    exact hmem

/-- Inversion of the realm gate: a merge records exactly the freshest
user data as target and the looked-up source. -/
theorem attachMergeGate_merged (encryptF : Option String → Option String) (db : List Row)
    (now : Nat) (freshest : PdEntry) (srcKey : String) (srcData : UserData)
    (tgt : UserData) (sk : String) (src : UserData)
    (h : (attachMergeGate encryptF db now freshest srcKey srcData).merged =
      some (tgt, sk, src)) :
    tgt = freshest.data ∧ src = srcData := by
  unfold attachMergeGate at h
  by_cases hc : (!(jsTruthy freshest.data.qb_realm_id) ||
      (freshest.data.qb_realm_id == srcData.qb_realm_id)) = true
  · rw [if_pos hc] at h
    have h2 : some (freshest.data, srcKey, srcData) = some (tgt, sk, src) := h
    injection h2 with h2
    injection h2 with ha hb
    injection hb with hb1 hb2
    exact ⟨ha.symm, hb2.symm⟩
  · rw [if_neg hc] at h
    have h2 : (none : Option (UserData × String × UserData)) = some (tgt, sk, src) := h
    exact Option.noConfusion h2

/-- When the source-lookup step merges, the source record was looked up
under the freshest user's own normalized domain, so both records carry
the same normalized CRM domain. -/
theorem attachSource_domains (encryptF : Option String → Option String) (db : List Row)
    (now : Nat) (scan : AttachScan) (freshest : PdEntry)
    (tgt : UserData) (sk : String) (src : UserData)
    (hq : QbInv scan.qbByDomain) (hp : PdInv scan.pdUsers)
    (hmem : freshest ∈ scan.pdUsers)
    (h : (attachSource encryptF db now scan freshest).merged = some (tgt, sk, src)) :
    ∃ dt ds, tgt.api_domain = some dt ∧ src.api_domain = some ds ∧
      stripHttps dt = stripHttps ds := by
  unfold attachSource at h
  by_cases hqb : (!freshest.hasQBTokens) = true
  · rw [if_pos hqb] at h
    cases hfd : freshest.apiDomain with
    | none =>
      rw [hfd] at h
      have h2 : (none : Option (UserData × String × UserData)) = some (tgt, sk, src) := h
      exact Option.noConfusion h2
    | some fd =>
      rw [hfd] at h
      have h3 : (match lookupDomain scan.qbByDomain fd with
          | some (srcKey, srcData) => attachMergeGate encryptF db now freshest srcKey srcData
          | none =>
            (⟨some (freshest.key, freshest.data), db, none⟩ : AttachResult)).merged =
          some (tgt, sk, src) := h
      cases hld : lookupDomain scan.qbByDomain fd with
      | none =>
        rw [hld] at h3
        have h2 : (none : Option (UserData × String × UserData)) = some (tgt, sk, src) := h3
        exact Option.noConfusion h2
      | some kp =>
        rw [hld] at h3
        obtain ⟨srcKey0, srcData0⟩ := kp
        obtain ⟨h1, h2⟩ := attachMergeGate_merged encryptF db now freshest srcKey0 srcData0
          tgt sk src h3
        obtain ⟨dt, hdt, hdtn⟩ := hp freshest hmem fd hfd
        obtain ⟨ds, hds, hdsn⟩ := hq (fd, srcKey0, srcData0)
          (lookupDomain_mem scan.qbByDomain fd srcKey0 srcData0 hld)
        refine ⟨dt, ds, ?_, ?_, ?_⟩
        · rw [h1]; exact hdt
        · rw [h2]; exact hds
        · rw [hdtn, hdsn]
  · rw [if_neg hqb] at h
    have h2 : (none : Option (UserData × String × UserData)) = some (tgt, sk, src) := h
    exact Option.noConfusion h2

/-- When the freshest-user step merges, the two records agree on the
normalized CRM domain. -/
theorem attachFreshestStep_domains (encryptF : Option String → Option String) (db : List Row)
    (now : Nat) (scan : AttachScan) (tgt : UserData) (srcKey : String) (src : UserData)
    (hq : QbInv scan.qbByDomain) (hp : PdInv scan.pdUsers)
    (h : (attachFreshestStep encryptF db now scan).merged = some (tgt, srcKey, src)) :
    ∃ dt ds, tgt.api_domain = some dt ∧ src.api_domain = some ds ∧
      stripHttps dt = stripHttps ds := by
  unfold attachFreshestStep at h
  cases hpf : pickFreshest scan.pdUsers with
  | none =>
    rw [hpf] at h
    have h2 : (none : Option (UserData × String × UserData)) = some (tgt, srcKey, src) := h
    exact Option.noConfusion h2
  | some freshest =>
    rw [hpf] at h
    exact attachSource_domains encryptF db now scan freshest tgt srcKey src hq hp
      (pickFreshest_mem scan.pdUsers freshest hpf) h

/-- C1: whenever the attach-contact fallback merges QuickBooks
credentials discovered via the loose-identifier scan from one stored
record into another, the two records agree on the normalized CRM domain
field; records whose CRM domains differ are never merged, whatever other
heuristic matched. -/
theorem c1_merge_requires_same_domain (decryptF encryptF : Option String → Option String)
    (db : List Row) (providedUserId : String) (now : Nat)
    (tgt : UserData) (srcKey : String) (src : UserData)
    (h : (attachContactLookup decryptF encryptF db providedUserId now).merged =
      some (tgt, srcKey, src)) :
    ∃ dt ds, tgt.api_domain = some dt ∧ src.api_domain = some ds ∧
      stripHttps dt = stripHttps ds := by
  simp only [attachContactLookup] at h
  cases hi : attachInitial decryptF db providedUserId with
  | some ku => rw [hi] at h; simp at h
  | none =>
    rw [hi] at h
    cases hd : (attachScan decryptF db providedUserId (listUsers db) ⟨[], [], none⟩).directHit
      with
    | some ku => rw [hd] at h; simp at h
    | none =>
      rw [hd] at h
      have hinv := attachScan_inv decryptF db providedUserId (listUsers db) ⟨[], [], none⟩
        (fun e he => absurd he (List.not_mem_nil e))
        (fun en hen => absurd hen (List.not_mem_nil en))
      exact attachFreshestStep_domains encryptF db now _ tgt srcKey src hinv.1 hinv.2 h

/-- C1 witness: the merge invariant evaluated on the concrete store
where the fallback merge fires between the two acme records. -/
theorem c1_merge_requires_same_domain_witness :
    ∃ dt ds, (rowToUserData idF c1PdRow).api_domain = some dt ∧
      (rowToUserData idF c1QbRow).api_domain = some ds ∧
      stripHttps dt = stripHttps ds :=
  c1_merge_requires_same_domain idF idF c1db "zzz" 99
    (rowToUserData idF c1PdRow) "u2" (rowToUserData idF c1QbRow) rfl

end PQSync

